import Mathlib

/-!
Shallow embedding of the simple-ids analyzers
(src/simple_ids/analyzers/network_analyzer.py and
src/simple_ids/analyzers/ml_network_analyzer.py).

Python strings are modelled as Lean `String` (or `List Char` where we
reason about splitting), timestamps and classifier scores as `ℚ`,
ports and sizes as `ℕ`.  Python dictionaries (which iterate in
insertion order) are modelled as association lists in insertion order.
Code that can raise an exception is modelled in `Except String`.
-/

/-- Models Python's str.split(sep) for a one-character separator,
applied to the character list of the string.  Returns the (possibly
empty) segments between occurrences of the separator; like Python,
splitting the empty string yields one empty segment. -/
def splitSep (sep : Char) : List Char → List (List Char)
  | [] => [[]]
  | c :: rest =>
    let r := splitSep sep rest
    if c = sep then [] :: r
    else
      match r with
      | [] => [[c]]
      | h :: t => (c :: h) :: t

/-- Fuel-driven decimal rendering; the fuel always suffices when it
exceeds the number being rendered. -/
def natCharsAux : ℕ → ℕ → List Char
  | 0, _ => []
  | fuel + 1, n =>
    if n < 10 then [Nat.digitChar n]
    else natCharsAux fuel (n / 10) ++ [Nat.digitChar (n % 10)]

/-- Models Python's str(n) for a natural number: decimal digits,
most significant first. -/
def natChars (n : ℕ) : List Char := natCharsAux (n + 1) n

/-- The string rendering of a natural number, as Python's str(n). -/
def natStr (n : ℕ) : String := String.mk (natChars n)

/-- Models Python's int(s) on the strings that arise as the port
component of a flow key (a decimal rendering of a natural number):
defined on non-empty all-digit strings, `none` (a raised ValueError)
otherwise. -/
def pyIntOfChars (l : List Char) : Option ℕ :=
  if l ≠ [] ∧ l.all (·.isDigit) then
    some (l.foldl (fun acc c => 10 * acc + (c.toNat - 48)) 0)
  else none

/-- One dotted-quad octet for ipaddress parsing: non-empty, all
decimal digits, no leading zero (Python rejects them), value ≤ 255. -/
def parseOctet (l : List Char) : Option ℕ :=
  if l ≠ [] ∧ l.all (·.isDigit) ∧ (l = ['0'] ∨ l.head? ≠ some '0') then
    let v := l.foldl (fun acc c => 10 * acc + (c.toNat - 48)) 0
    if v ≤ 255 then some v else none
  else none

/-- Models ipaddress.ip_address parsing for IPv4 dotted-quad strings.
Every textual IPv6 form accepted by ip_address contains at least one
':', so on colon-free strings this parser succeeds exactly when
ip_address does.  IPv6 literals are NOT modelled: theorems that use
the privacy verdict restrict themselves to colon-free addresses,
either structurally (a ':'-split flow-key segment is colon-free) or
by explicit hypothesis. -/
def parseIPv4 (s : String) : Option (ℕ × ℕ × ℕ × ℕ) :=
  match (splitSep '.' s.data).map parseOctet with
  | [some a, some b, some c, some d] => some (a, b, c, d)
  | _ => none

/-- Models IPv4Address.is_private: membership in the iana special
registry private blocks used by CPython's ipaddress module. -/
def ipv4Private : ℕ × ℕ × ℕ × ℕ → Bool
  | (a, b, c, d) =>
    a = 0 ∨ a = 10 ∨ a = 127 ∨
    (a = 169 ∧ b = 254) ∨
    (a = 172 ∧ 16 ≤ b ∧ b ≤ 31) ∨
    (a = 192 ∧ b = 0 ∧ c = 0 ∧ d ≤ 7) ∨
    (a = 192 ∧ b = 0 ∧ c = 0 ∧ (d = 170 ∨ d = 171)) ∨
    (a = 192 ∧ b = 0 ∧ c = 2) ∨
    (a = 192 ∧ b = 168) ∨
    (a = 198 ∧ (b = 18 ∨ b = 19)) ∨
    (a = 198 ∧ b = 51 ∧ c = 100) ∨
    (a = 203 ∧ b = 0 ∧ c = 113) ∨
    240 ≤ a

/-- Models `_is_internal_ip` (identical in both analyzers): parse the
address and return is_private; a ValueError (unparseable string) is
caught and yields False — fail-open to "non-private".  Faithful on
colon-free strings only: Python's ip_address also parses IPv6, whose
private literals ("::1", fe80::/10, fc00::/7, ...) are private in the
program but all contain ':'.  Every theorem consulting this verdict
therefore confines itself to colon-free inputs, by structure or by
hypothesis. -/
def is_internal_ip (s : String) : Bool :=
  match parseIPv4 s with
  | some q => ipv4Private q
  | none => false

/-- Models a normalized packet event dictionary.  Each field carries
the default that the source supplies to dict.get for a missing key. -/
structure Packet where
  src : String := ""
  dst : String := ""
  sport : ℕ := 0
  dport : ℕ := 0
  proto : String := ""
  size : ℕ := 0
  flags : String := ""
  frame_type : String := ""
  frame_subtype : String := ""
  src_mac : String := ""
deriving DecidableEq, Repr

/-- Models an alert dictionary as built by both analyzers. -/
structure Alert where
  timestamp : ℚ
  atype : String
  severity : String
  source : String
  description : String
deriving DecidableEq, Repr

/-- Association-list lookup (Python dict membership / indexing),
first matching key wins. -/
def lookupA {κ α : Type} [DecidableEq κ] : List (κ × α) → κ → Option α
  | [], _ => none
  | p :: rest, k => if p.1 = k then some p.2 else lookupA rest k

/-- Association-list in-place update of the first entry with the given
key (Python mutating dict[k]); identity when the key is absent. -/
def updateA {κ α : Type} [DecidableEq κ] : List (κ × α) → κ → (α → α) → List (κ × α)
  | [], _, _ => []
  | p :: rest, k, f =>
    if p.1 = k then (p.1, f p.2) :: rest else p :: updateA rest k f

/-! ## NetworkAnalyzer (network_analyzer.py) -/

/-- The mutable state of a NetworkAnalyzer instance:
ip_port_access maps a source IP to its (timestamp, port) accesses,
deauth_frames maps a MAC to its deauth-frame timestamps. -/
structure NetState where
  ip_port_access : List (String × List (ℚ × ℕ)) := []
  deauth_frames : List (String × List ℚ) := []
deriving DecidableEq, Repr

/-- Per-packet port-access tracking (analyze, lines 36-40): only a
truthy (non-empty) src is recorded; a fresh key starts an empty list
and the (current_time, dst_port) pair is appended. -/
def stepPort (now : ℚ) (pa : List (String × List (ℚ × ℕ))) (p : Packet) :
    List (String × List (ℚ × ℕ)) :=
  if p.src = "" then pa
  else
    match lookupA pa p.src with
    | some _ => updateA pa p.src (fun l => l ++ [(now, p.dport)])
    | none => pa ++ [(p.src, [(now, p.dport)])]

/-- Per-packet deauth tracking (analyze, lines 42-46). -/
def stepDeauth (now : ℚ) (da : List (String × List ℚ)) (p : Packet) :
    List (String × List ℚ) :=
  if p.frame_type = "management" ∧ p.frame_subtype = "deauth" ∧ p.src_mac ≠ "" then
    match lookupA da p.src_mac with
    | some _ => updateA da p.src_mac (fun l => l ++ [now])
    | none => da ++ [(p.src_mac, [now])]
  else da

/-- The suspicious_ports watchlist of analyze (line 49). -/
def suspiciousName (p : ℕ) : Option String :=
  if p = 22 then some "SSH" else if p = 3389 then some "RDP"
  else if p = 445 then some "SMB" else none

/-- The watchlist-port alert of analyze (lines 50-57), emitted when
dst_port is on the watchlist, src is truthy and not internal. -/
def stepWatch (now : ℚ) (p : Packet) : Option Alert :=
  match suspiciousName p.dport with
  | some nm =>
    if p.src ≠ "" ∧ ¬ is_internal_ip p.src then
      some { timestamp := now
             atype := nm ++ " Access Attempt"
             severity := "medium"
             source := "network_traffic"
             description := "External IP " ++ p.src ++ " attempting to connect to "
               ++ nm ++ " port " ++ natStr p.dport }
    else none
  | none => none

/-- The number of distinct ports an IP accessed strictly within the
last port_scan_window = 5 seconds (lines 78-81). -/
def distinctRecentPorts (now : ℚ) (accesses : List (ℚ × ℕ)) : ℕ :=
  (((accesses.filter (fun a => now - 5 < a.1)).map Prod.snd).dedup).length

/-- The port-scan alert value (lines 84-90). -/
def mkScanAlert (now : ℚ) (ip : String) (n : ℕ) : Alert :=
  { timestamp := now
    atype := "Potential Port Scan"
    severity := "high"
    source := "network_traffic"
    description := "IP " ++ ip ++ " accessed " ++ natStr n
      ++ " different ports in 5 seconds" }

/-- Models `_detect_port_scans` (lines 72-92): one alert per tracked
IP whose distinct recent-port count reaches the threshold 10. -/
def detect_port_scans (pa : List (String × List (ℚ × ℕ))) (now : ℚ) : List Alert :=
  pa.filterMap (fun e =>
    let n := distinctRecentPorts now e.2
    if 10 ≤ n then some (mkScanAlert now e.1 n) else none)

/-- The deauth-attack alert value (lines 103-109). -/
def mkDeauthAlert (now : ℚ) (mac : String) (k : ℕ) : Alert :=
  { timestamp := now
    atype := "WiFi Deauthentication Attack"
    severity := "high"
    source := "network_traffic"
    description := "Possible deauthentication attack detected from MAC " ++ mac
      ++ ": " ++ natStr k ++ " deauth frames in 3 seconds" }

/-- Models `_detect_deauth_attacks` (lines 94-111). -/
def detect_deauth_attacks (da : List (String × List ℚ)) (now : ℚ) : List Alert :=
  da.filterMap (fun e =>
    let recent := e.2.filter (fun t => now - 3 < t)
    if 5 ≤ recent.length then some (mkDeauthAlert now e.1 recent.length) else none)

/-- Models `_cleanup_old_entries` (lines 113-125): keep only records
newer than the cutoff and drop keys whose list becomes empty. -/
def cleanup_old_entries (st : NetState) (cutoff : ℚ) : NetState :=
  { ip_port_access := st.ip_port_access.filterMap (fun e =>
      let l := e.2.filter (fun a => cutoff < a.1)
      if l = [] then none else some (e.1, l))
    deauth_frames := st.deauth_frames.filterMap (fun e =>
      let l := e.2.filter (fun t => cutoff < t)
      if l = [] then none else some (e.1, l)) }

/-- Models NetworkAnalyzer.analyze (lines 19-70).  The Python loop
interleaves, per packet, three independent updates (port tracking,
deauth tracking, watchlist alerts); they touch disjoint state, so the
loop is rendered as one fold per update, which yields the same maps
and the same alert order.  Returns the new state together with the
alert list; an empty batch returns immediately. -/
def network_analyze (st : NetState) (batch : List Packet) (now : ℚ) :
    NetState × List Alert :=
  if batch = [] then (st, [])
  else
    let pa := batch.foldl (stepPort now) st.ip_port_access
    let da := batch.foldl (stepDeauth now) st.deauth_frames
    let watch := batch.filterMap (stepWatch now)
    let scans := detect_port_scans pa now
    let deauths := detect_deauth_attacks da now
    (cleanup_old_entries { ip_port_access := pa, deauth_frames := da } (now - 60),
     watch ++ scans ++ deauths)

/-! ## MLNetworkAnalyzer (ml_network_analyzer.py) -/

/-- One entry of ip_behavior: per source IP packet count, last-seen
time and rolling classifier-score history (line 96-100). -/
structure IpBehavior where
  packets : ℕ
  last_seen : ℚ
  scores : List ℚ
deriving DecidableEq, Repr

/-- The ip_behavior tracking map. -/
abbrev EbMap : Type := List (String × IpBehavior)

/-- The mutable state of an MLNetworkAnalyzer instance (models are an
external capability, passed separately to the analysis functions). -/
structure MLState where
  packet_history : List Packet := []
  ip_behavior : EbMap := []
deriving DecidableEq

/-- The per-call packet-history update (analyze, lines 84-89): extend,
then keep only the most recent history_limit = 1000 entries. -/
def trimHistory (h : List Packet) : List Packet :=
  if 1000 < h.length then h.drop (h.length - 1000) else h

/-- Per-packet ip_behavior update (analyze, lines 92-103): only a
truthy src is tracked; a fresh entry starts at zero, then the packet
count is incremented and last_seen set to the current time. -/
def stepEb (now : ℚ) (eb : EbMap) (p : Packet) : EbMap :=
  if p.src = "" then eb
  else
    match lookupA eb p.src with
    | some _ => updateA eb p.src (fun b =>
        { b with packets := b.packets + 1, last_seen := now })
    | none => eb ++ [(p.src, { packets := 1, last_seen := now, scores := [] })]

/-- Score recording for one IP's score list (lines 328-332): append,
then keep only the last 10 entries. -/
def recordScore (l : List ℚ) (s : ℚ) : List ℚ :=
  let l' := l ++ [s]
  if 10 < l'.length then l'.drop (l'.length - 10) else l'

/-- Score recording at the map level (lines 326-332): a score is only
recorded when the source IP is already tracked in ip_behavior. -/
def recordScoreEb (eb : EbMap) (ip : String) (s : ℚ) : EbMap :=
  match lookupA eb ip with
  | some _ => updateA eb ip (fun b => { b with scores := recordScore b.scores s })
  | none => eb

/-- The arithmetic mean of a score list (line 414). -/
def averageScore (l : List ℚ) : ℚ := l.sum / (l.length : ℚ)

/-- Models Python's f-string two-decimal rendering of the scores that
occur here (nonnegative, non-tie rationals): round to hundredths and
print with exactly two decimals. -/
def fmt2 (q : ℚ) : String :=
  let m := (Rat.floor (q * 100 + 1/2)).toNat
  String.mk (natChars (m / 100) ++ '.' ::
    (if m % 100 < 10 then '0' :: natChars (m % 100) else natChars (m % 100)))

/-- Protocol code for feature extraction (lines 138-144). -/
def protoNum (proto : String) : ℚ :=
  if proto.toLower = "tcp" then 1
  else if proto.toLower = "udp" then 2
  else if proto.toLower = "icmp" then 3 else 0

/-- Models `_extract_features` for one packet (lines 127-193): a
feature vector padded or trimmed to feature_count = 15 entries. -/
def extractFeature (eb : EbMap) (p : Packet) : List ℚ :=
  let flagFeatures : List ℚ :=
    [if p.flags.contains 'S' then 1 else 0,
     if p.flags.contains 'A' then 1 else 0,
     if p.flags.contains 'F' then 1 else 0,
     if p.flags.contains 'R' then 1 else 0]
  let wellKnown : ℚ := if p.dport < 1024 ∨ p.sport < 1024 then 1 else 0
  let highPort : ℚ := if 49000 < p.dport ∨ 49000 < p.sport then 1 else 0
  let recent : ℚ :=
    match lookupA eb p.src with
    | some b => min ((b.packets : ℚ) / 1000) 1
    | none => 0
  let base : List ℚ :=
    [(p.sport : ℚ) / 65535, (p.dport : ℚ) / 65535, protoNum p.proto / 3,
     (p.size : ℚ) / 1500,
     if is_internal_ip p.src then 1 else 0,
     if is_internal_ip p.dst then 1 else 0,
     wellKnown, highPort] ++ flagFeatures ++ [recent]
  (base ++ List.replicate (15 - base.length) 0).take 15

/-- Models `_extract_features` over a batch (line 123-195). -/
def extract_features (eb : EbMap) (batch : List Packet) : List (List ℚ) :=
  batch.map (extractFeature eb)

/-- The attack_types table (lines 26-33) with the default used for
the alert type string ("Unknown Attack", line 317). -/
def attackTypeName : ℕ → String
  | 0 => "Normal Traffic"
  | 1 => "Port Scan"
  | 2 => "DoS Attack"
  | 3 => "Brute Force"
  | 4 => "Data Exfiltration"
  | 5 => "Command and Control"
  | _ => "Unknown Attack"

/-- The attack_types table with the default used inside the alert
description ("anomalous traffic", line 320). -/
def attackDescName : ℕ → String
  | 0 => "Normal Traffic"
  | 1 => "Port Scan"
  | 2 => "DoS Attack"
  | 3 => "Brute Force"
  | 4 => "Data Exfiltration"
  | 5 => "Command and Control"
  | _ => "anomalous traffic"

/-- Models np.argmax on a non-empty prefix-scanned list: index of the
first occurrence of the maximum. -/
def argmaxGo : List ℚ → ℕ → ℕ → ℚ → ℕ
  | [], _, bi, _ => bi
  | x :: xs, i, bi, bv => if bv < x then argmaxGo xs (i + 1) i x else argmaxGo xs (i + 1) bi bv

/-- np.argmax over a prediction vector (0 on the empty list, which
Python instead turns into a raised ValueError; the caller treats the
empty vector as the error case explicitly). -/
def argmaxList : List ℚ → ℕ
  | [] => 0
  | x :: xs => argmaxGo xs 1 0 x

/-- The CNN-path alert (lines 314-323). -/
def mkMlAlert (now : ℚ) (idx : ℕ) (conf : ℚ) (p : Packet) : Alert :=
  { timestamp := now
    atype := "ML Detected: " ++ attackTypeName idx
    severity := if (0.9 : ℚ) < conf then "high" else "medium"
    source := "ml_network_analyzer"
    description := "ML detected " ++ attackDescName idx ++ " from IP " ++ p.src
      ++ " to " ++ p.dst ++ " (confidence: " ++ fmt2 conf ++ ")" }

/-- The SVM-path alert (lines 350-357). -/
def mkSvmAlert (now : ℚ) (p : Packet) : Alert :=
  { timestamp := now
    atype := "ML Detected: Suspicious Traffic Pattern"
    severity := "medium"
    source := "ml_network_analyzer"
    description := "SVM model detected suspicious traffic pattern from IP "
      ++ p.src ++ " to " ++ p.dst }

/-- Processing of the CNN predictions (lines 309-332): per prediction,
attribute it to packets[i], falling back to the last packet on
overflow; alert when the argmax class is non-benign with confidence
above probability_threshold = 0.75, and record the confidence into the
ip_behavior of the attributed source.  An empty prediction vector
makes np.argmax raise; the returned flag records that the exception
occurred (alerts appended so far and behaviour mutations persist, as
they do across Python's try/except). -/
def processCnn (now : ℚ) (pkts : List Packet) :
    List (List ℚ) → ℕ → EbMap → List Alert × EbMap × Bool
  | [], _, eb => ([], eb, false)
  | pred :: rest, i, eb =>
    match pred with
    | [] => ([], eb, true)
    | p0 :: ptl =>
      let idx := argmaxList (p0 :: ptl)
      let conf := (p0 :: ptl).getD idx 0
      let pk := pkts.getD i (pkts.getLastD {})
      if 0 < idx ∧ (0.75 : ℚ) < conf then
        let eb' := recordScoreEb eb pk.src conf
        let r := processCnn now pkts rest (i + 1) eb'
        (mkMlAlert now idx conf pk :: r.1, r.2)
      else
        processCnn now pkts rest (i + 1) eb

/-- Processing of the SVM predictions (lines 347-357): a positive
prediction yields a medium alert attributed like the CNN path. -/
def processSvm (now : ℚ) (pkts : List Packet) : List ℚ → ℕ → List Alert
  | [], _ => []
  | pred :: rest, i =>
    let pk := pkts.getD i (pkts.getLastD {})
    if 0 < pred then mkSvmAlert now pk :: processSvm now pkts rest (i + 1)
    else processSvm now pkts rest (i + 1)

/-- The classifier boundary: an optional CNN model and an optional SVM
model, each a black-box predictor that may fail (raise). -/
structure Models where
  cnn : Option (List (List ℚ) → Except String (List (List ℚ)))
  svm : Option (List (List ℚ) → Except String (List ℚ))

/-- Models `_run_ml_detection` (lines 197-366).  The tensor-shape
coercion that feeds the Keras predict call is part of the black-box
cnn predictor.  The whole body runs under one try/except: a failing
cnn prediction is swallowed (alerts collected so far are returned and
the svm section is skipped); svm failures are swallowed by the inner
try/except.  Returns the alerts together with the (possibly mutated)
ip_behavior map. -/
def run_ml_detection (m : Models) (features : List (List ℚ))
    (pkts : List Packet) (eb : EbMap) (now : ℚ) : List Alert × EbMap :=
  if features.length = 0 then ([], eb)
  else
    match m.cnn with
    | none =>
      match m.svm with
      | none => ([], eb)
      | some f =>
        match f features with
        | .error _ => ([], eb)
        | .ok preds => (processSvm now pkts preds 0, eb)
    | some g =>
      match g features with
      | .error _ => ([], eb)
      | .ok preds =>
        match processCnn now pkts preds 0 eb, m.svm with
        | (al, eb2, true), _ => (al, eb2)
        | (al, eb2, false), none => (al, eb2)
        | (al, eb2, false), some f =>
          match f features with
          | .error _ => (al, eb2)
          | .ok spreds => (al ++ processSvm now pkts spreds 0, eb2)

/-- The string-joined flow key of `_analyze_flows` (line 379):
src, dst and dst_port joined with the ':' separator. -/
def flowKeyOf (p : Packet) : List Char :=
  p.src.data ++ ':' :: p.dst.data ++ ':' :: natChars p.dport

/-- The flow keys of a batch in first-occurrence order (the iteration
order of the Python dict built on lines 373-383). -/
def flowKeysAux (acc : List (List Char)) : List Packet → List (List Char)
  | [] => acc
  | p :: rest =>
    if flowKeyOf p ∈ acc then flowKeysAux acc rest
    else flowKeysAux (acc ++ [flowKeyOf p]) rest

/-- Models the flow grouping of `_analyze_flows` (lines 373-383): the
batch grouped by flow key; keys in first-occurrence order, each with
its packets in arrival order — exactly the dict the Python loop
builds. -/
def groupFlows (batch : List Packet) : List (List Char × List Packet) :=
  (flowKeysAux [] batch).map (fun k => (k, batch.filter (fun p => flowKeyOf p = k)))

/-- The brute-force alert of a flow (lines 394-400). -/
def mkBruteAlert (now : ℚ) (src dst : List Char) (port : ℕ) : Alert :=
  { timestamp := now
    atype := "Potential Brute Force"
    severity := "high"
    source := "ml_network_analyzer"
    description := "Excessive connection attempts from " ++ String.mk src
      ++ " to " ++ String.mk dst ++ ":" ++ natStr port }

/-- The large-transfer alert of a flow (lines 404-410). -/
def mkLargeAlert (now : ℚ) (src dst : List Char) : Alert :=
  { timestamp := now
    atype := "Large Data Transfer"
    severity := "medium"
    source := "ml_network_analyzer"
    description := "Large data transfer from " ++ String.mk src
      ++ " to external IP " ++ String.mk dst }

/-- The persistent-anomaly alert of a flow (lines 416-422). -/
def mkPersistAlert (now : ℚ) (src : List Char) (avg : ℚ) : Alert :=
  { timestamp := now
    atype := "Persistent Anomalous Behavior"
    severity := "high"
    source := "ml_network_analyzer"
    description := "IP " ++ String.mk src ++ " shows persistent anomalous behavior (score: "
      ++ fmt2 avg ++ ")" }

/-- The body of the per-flow loop of `_analyze_flows` (lines 386-422):
unpack the flow key (a ValueError when it does not split into exactly
three parts, or when the port part is not an integer), then run the
brute-force, large-transfer and persistent-anomaly checks in order. -/
def flowStep (eb : EbMap) (now : ℚ) (g : List Char × List Packet) :
    Except String (List Alert) :=
  match splitSep ':' g.1 with
  | [sa, sb, sc] =>
    match pyIntOfChars sc with
    | none => .error "invalid literal for int"
    | some port =>
      let brute := if 10 < g.2.length ∧ (port = 22 ∨ port = 23 ∨ port = 3389 ∨ port = 445)
        then [mkBruteAlert now sa sb port] else []
      let large := if ¬ is_internal_ip (String.mk sb)
          ∧ 100000 < (g.2.map Packet.size).sum
        then [mkLargeAlert now sa sb] else []
      let persist :=
        match lookupA eb (String.mk sa) with
        | some b =>
          if b.scores.length ≠ 0 ∧ (0.85 : ℚ) < averageScore b.scores
          then [mkPersistAlert now sa (averageScore b.scores)] else []
        | none => []
      .ok (brute ++ large ++ persist)
  | _ => .error "too many values to unpack"

/-- The flow loop: concatenates the per-flow alerts; the first raised
ValueError aborts the whole call. -/
def goFlows (eb : EbMap) (now : ℚ) : List (List Char × List Packet) →
    Except String (List Alert)
  | [] => .ok []
  | g :: gs =>
    match flowStep eb now g with
    | .error e => .error e
    | .ok al =>
      match goFlows eb now gs with
      | .error e => .error e
      | .ok rest => .ok (al ++ rest)

/-- Models `_analyze_flows` (lines 368-424). -/
def analyze_flows (eb : EbMap) (batch : List Packet) (now : ℚ) :
    Except String (List Alert) :=
  goFlows eb now (groupFlows batch)

/-- Models `_cleanup_old_data` (lines 426-430): drop ip_behavior
entries whose last_seen is older than the cutoff. -/
def cleanup_old_data (eb : EbMap) (cutoff : ℚ) : EbMap :=
  List.filter (fun e => decide (cutoff ≤ e.2.last_seen)) eb

/-- The ML stage of analyze (lines 105-112): feature extraction and
model inference only run when the batch reaches batch_size = 64. -/
def mlStage (m : Models) (eb : EbMap) (batch : List Packet) (now : ℚ) :
    List Alert × EbMap :=
  if 64 ≤ batch.length then
    run_ml_detection m (extract_features eb batch) batch eb now
  else ([], eb)

/-- Models MLNetworkAnalyzer.analyze (lines 76-121): history update,
behaviour tracking, optional ML stage, flow analysis (whose ValueError
propagates to the caller), cleanup with a one-hour horizon, and the
concatenated alert list. -/
def ml_analyze (m : Models) (st : MLState) (batch : List Packet) (now : ℚ) :
    Except String (MLState × List Alert) :=
  if batch = [] then .ok (st, [])
  else
    match analyze_flows (mlStage m (batch.foldl (stepEb now) st.ip_behavior) batch now).2
        batch now with
    | .error e => .error e
    | .ok fa =>
      .ok ({ packet_history := trimHistory (st.packet_history ++ batch),
             ip_behavior := cleanup_old_data
               (mlStage m (batch.foldl (stepEb now) st.ip_behavior) batch now).2 (now - 3600) },
           (mlStage m (batch.foldl (stepEb now) st.ip_behavior) batch now).1 ++ fa)

/-- A sequence of analyze calls on one MLNetworkAnalyzer instance,
each with its own batch and clock value; stops at the first raised
exception, like a caller without error handling would. -/
def foldAnalyze (m : Models) : MLState → List (List Packet × ℚ) → Except String MLState
  | st, [] => .ok st
  | st, (b, t) :: rest =>
    match ml_analyze m st b t with
    | .error e => .error e
    | .ok r => foldAnalyze m r.1 rest

/-! ## Derived notions used to state the claims -/

/-- A port-scan alert "for ip": right type, and its description opens
with the text that `_detect_port_scans` prints for that ip. -/
def scanTagged (ip : String) (a : Alert) : Bool :=
  a.atype == "Potential Port Scan"
    && ("IP " ++ ip ++ " accessed ").data.isPrefixOf a.description.data

/-- The alert that `_detect_port_scans` would build for a tracked
entry, whether or not it fires. -/
def scanAlertOf (now : ℚ) (e : String × List (ℚ × ℕ)) : Alert :=
  mkScanAlert now e.1 (distinctRecentPorts now e.2)

/-- A persistent-anomaly alert "for ip": right type, and its
description opens with the text `_analyze_flows` prints for that ip. -/
def persistTagged (ip : String) (a : Alert) : Bool :=
  a.atype == "Persistent Anomalous Behavior"
    && ("IP " ++ ip ++ " shows").data.isPrefixOf a.description.data

/-- The source component of a flow key, as `_analyze_flows` unpacks it
(the first split segment; a split is never empty). -/
def flowSrcOf (k : List Char) : List Char := (splitSep ':' k).headD []

/-- The brute-force alert that `_analyze_flows` would build for a
given flow key (an arbitrary harmless value on unparseable keys,
where the real code raises instead of alerting). -/
def bruteAlertOfKey (now : ℚ) (k : List Char) : Alert :=
  match splitSep ':' k with
  | [sa, sb, sc] =>
    match pyIntOfChars sc with
    | some p => mkBruteAlert now sa sb p
    | none => mkBruteAlert now [] [] 0
  | _ => mkBruteAlert now [] [] 0

/-- The persistent-anomaly alert that `_analyze_flows` would build for
a given flow key against a given behaviour map, when its condition
holds. -/
def persistAlertOf (eb : EbMap) (now : ℚ) (k : List Char) : Option Alert :=
  match lookupA eb (String.mk (flowSrcOf k)) with
  | some b =>
    if b.scores.length ≠ 0 ∧ (0.85 : ℚ) < averageScore b.scores
    then some (mkPersistAlert now (flowSrcOf k) (averageScore b.scores)) else none
  | none => none

/-! ## Helper lemmas: decimal digits and splitting -/

theorem natCharsAux_fuel_irrel :
    ∀ (n f1 f2 : ℕ), n < f1 → n < f2 → natCharsAux f1 n = natCharsAux f2 n := by
  intro n
  induction n using Nat.strong_induction_on with
  | _ n ih =>
    intro f1 f2 h1 h2
    cases f1 with
    | zero => omega
    | succ g1 =>
      cases f2 with
      | zero => omega
      | succ g2 =>
        simp only [natCharsAux]
        by_cases hn : n < 10
        · rw [if_pos hn, if_pos hn]
        · rw [if_neg hn, if_neg hn,
            ih (n / 10) (Nat.div_lt_self (by omega) (by omega)) g1 g2 (by omega) (by omega)]

theorem natChars_eq (n : ℕ) :
    natChars n = if n < 10 then [Nat.digitChar n]
      else natChars (n / 10) ++ [Nat.digitChar (n % 10)] := by
  by_cases hn : n < 10
  · rw [if_pos hn]
    unfold natChars natCharsAux
    rw [if_pos hn]
  · rw [if_neg hn]
    show natCharsAux (n + 1) n = natCharsAux (n / 10 + 1) (n / 10) ++ [Nat.digitChar (n % 10)]
    rw [show natCharsAux (n + 1) n
        = if n < 10 then [Nat.digitChar n] else natCharsAux n (n / 10) ++ [Nat.digitChar (n % 10)]
      from rfl, if_neg hn,
      natCharsAux_fuel_irrel (n / 10) n (n / 10 + 1)
        (Nat.div_lt_self (by omega) (by omega)) (by omega)]

theorem digitChar_isDigit {d : ℕ} (h : d < 10) : (Nat.digitChar d).isDigit := by
  interval_cases d <;> decide

theorem digitChar_val {d : ℕ} (h : d < 10) : (Nat.digitChar d).toNat - 48 = d := by
  interval_cases d <;> decide

theorem natChars_digits (n : ℕ) : ∀ c ∈ natChars n, c.isDigit := by
  induction n using Nat.strong_induction_on with
  | _ n ih =>
    rw [natChars_eq]
    split
    · intro c hc
      simp only [List.mem_singleton] at hc
      subst hc
      exact digitChar_isDigit (by omega)
    · intro c hc
      rcases List.mem_append.mp hc with h1 | h2
      · exact ih (n / 10) (Nat.div_lt_self (by omega) (by omega)) c h1
      · simp only [List.mem_singleton] at h2
        subst h2
        exact digitChar_isDigit (Nat.mod_lt _ (by omega))

theorem natChars_ne_nil (n : ℕ) : natChars n ≠ [] := by
  rw [natChars_eq]
  split
  · simp
  · simp

theorem colon_not_mem_natChars (n : ℕ) : ':' ∉ natChars n := by
  intro h
  have := natChars_digits n ':' h
  simp at this

theorem dot_not_mem_natChars (n : ℕ) : '.' ∉ natChars n := by
  intro h
  have := natChars_digits n '.' h
  simp at this

/-- The decimal value accumulated by the int() fold. -/
def digitsVal (l : List Char) : ℕ :=
  l.foldl (fun acc c => 10 * acc + (c.toNat - 48)) 0

theorem digitsVal_foldl_init (l : List Char) :
    ∀ init, l.foldl (fun acc c => 10 * acc + (c.toNat - 48)) init
      = init * 10 ^ l.length + digitsVal l := by
  induction l with
  | nil => intro init; simp [digitsVal]
  | cons c cs ih =>
    intro init
    simp only [List.foldl_cons, List.length_cons, digitsVal]
    rw [ih (10 * init + (c.toNat - 48)), ih (10 * 0 + (c.toNat - 48))]
    ring

theorem digitsVal_append (a b : List Char) :
    digitsVal (a ++ b) = digitsVal a * 10 ^ b.length + digitsVal b := by
  unfold digitsVal
  rw [List.foldl_append]
  exact digitsVal_foldl_init b _

theorem digitsVal_natChars (n : ℕ) : digitsVal (natChars n) = n := by
  induction n using Nat.strong_induction_on with
  | _ n ih =>
    rw [natChars_eq]
    split
    · simp only [digitsVal, List.foldl_cons, List.foldl_nil]
      rw [Nat.mul_zero, Nat.zero_add]
      exact digitChar_val (by omega)
    · rw [digitsVal_append]
      rw [ih (n / 10) (Nat.div_lt_self (by omega) (by omega))]
      have hm : digitsVal [Nat.digitChar (n % 10)] = n % 10 := by
        simp only [digitsVal, List.foldl_cons, List.foldl_nil]
        rw [Nat.mul_zero, Nat.zero_add]
        exact digitChar_val (Nat.mod_lt _ (by omega))
      rw [hm]
      simp only [List.length_singleton, pow_one]
      omega

theorem pyIntOfChars_natChars (n : ℕ) : pyIntOfChars (natChars n) = some n := by
  unfold pyIntOfChars
  rw [if_pos]
  · exact congrArg some (digitsVal_natChars n)
  · exact ⟨natChars_ne_nil n, List.all_eq_true.mpr (fun c hc => natChars_digits n c hc)⟩

theorem splitSep_ne_nil (sep : Char) (l : List Char) : splitSep sep l ≠ [] := by
  induction l with
  | nil => simp [splitSep]
  | cons c rest ih =>
    simp only [splitSep]
    split
    · simp
    · cases h : splitSep sep rest with
      | nil => simp
      | cons a t => simp

theorem splitSep_not_mem {sep : Char} {l : List Char} (h : sep ∉ l) : splitSep sep l = [l] := by
  induction l with
  | nil => simp [splitSep]
  | cons c rest ih =>
    simp only [List.mem_cons, not_or] at h
    simp only [splitSep]
    rw [if_neg (fun hc => h.1 hc.symm), ih h.2]

theorem splitSep_append {sep : Char} {a : List Char} (r : List Char) (h : sep ∉ a) :
    splitSep sep (a ++ sep :: r) = a :: splitSep sep r := by
  induction a with
  | nil => simp [splitSep]
  | cons c cs ih =>
    simp only [List.mem_cons, not_or] at h
    simp only [List.cons_append, splitSep, List.append_eq]
    rw [if_neg (fun hc => h.1 hc.symm), ih h.2]

theorem splitSep_flowKey (p : Packet) (h1 : ':' ∉ p.src.data) (h2 : ':' ∉ p.dst.data) :
    splitSep ':' (flowKeyOf p) = [p.src.data, p.dst.data, natChars p.dport] := by
  unfold flowKeyOf
  simp only [List.cons_append, List.append_assoc]
  rw [splitSep_append _ h1, splitSep_append _ h2,
    splitSep_not_mem (colon_not_mem_natChars p.dport)]

/-! ## Helper lemmas: flow grouping and the flow loop -/

theorem flowKeysAux_nodup :
    ∀ (todo : List Packet) (acc : List (List Char)), acc.Nodup → (flowKeysAux acc todo).Nodup := by
  intro todo
  induction todo with
  | nil => intro acc h; exact h
  | cons p rest ih =>
    intro acc h
    simp only [flowKeysAux]
    split
    · exact ih acc h
    · refine ih _ ?_
      rw [List.nodup_append]
      exact ⟨h, List.nodup_singleton _, by simpa using (by assumption : ¬ flowKeyOf p ∈ acc)⟩

theorem mem_flowKeysAux_of_acc {k : List Char} :
    ∀ (todo : List Packet) (acc : List (List Char)), k ∈ acc → k ∈ flowKeysAux acc todo := by
  intro todo
  induction todo with
  | nil => intro acc h; exact h
  | cons p rest ih =>
    intro acc h
    simp only [flowKeysAux]
    split
    · exact ih acc h
    · exact ih _ (List.mem_append_left _ h)

theorem mem_flowKeysAux_of_mem {e : Packet} :
    ∀ (todo : List Packet) (acc : List (List Char)), e ∈ todo →
      flowKeyOf e ∈ flowKeysAux acc todo := by
  intro todo
  induction todo with
  | nil => intro acc h; exact absurd h (List.not_mem_nil e)
  | cons p rest ih =>
    intro acc h
    rcases List.mem_cons.mp h with h1 | h2
    · subst h1
      simp only [flowKeysAux]
      split
      · exact mem_flowKeysAux_of_acc rest acc (by assumption)
      · exact mem_flowKeysAux_of_acc rest _ (List.mem_append_right _ (List.mem_singleton.mpr rfl))
    · simp only [flowKeysAux]
      split
      · exact ih acc h2
      · exact ih _ h2

theorem mem_flowKeysAux_src {k : List Char} :
    ∀ (todo : List Packet) (acc : List (List Char)), k ∈ flowKeysAux acc todo →
      k ∈ acc ∨ ∃ e ∈ todo, flowKeyOf e = k := by
  intro todo
  induction todo with
  | nil => intro acc h; exact Or.inl h
  | cons p rest ih =>
    intro acc h
    simp only [flowKeysAux] at h
    split at h
    · rcases ih acc h with h1 | ⟨e, he, hk⟩
      · exact Or.inl h1
      · exact Or.inr ⟨e, List.mem_cons_of_mem _ he, hk⟩
    · rcases ih _ h with h1 | ⟨e, he, hk⟩
      · rcases List.mem_append.mp h1 with h2 | h3
        · exact Or.inl h2
        · exact Or.inr ⟨p, List.mem_cons_self _ _, (List.mem_singleton.mp h3).symm⟩
      · exact Or.inr ⟨e, List.mem_cons_of_mem _ he, hk⟩

theorem groupFlows_keys_nodup (batch : List Packet) :
    ((groupFlows batch).map Prod.fst).Nodup := by
  unfold groupFlows
  rw [List.map_map]
  have : (Prod.fst ∘ fun k => (k, batch.filter (fun p => flowKeyOf p = k)))
      = fun k => k := rfl
  rw [this]
  simpa using flowKeysAux_nodup batch [] List.nodup_nil

theorem mem_groupFlows_filter {batch : List Packet} {k : List Char} {l : List Packet}
    (h : (k, l) ∈ groupFlows batch) : l = batch.filter (fun p => flowKeyOf p = k) := by
  unfold groupFlows at h
  rcases List.mem_map.mp h with ⟨k', _, hk⟩
  have h1 : k' = k := congrArg Prod.fst hk
  have h2 := congrArg Prod.snd hk
  simp only at h2
  rw [← h2, h1]

theorem groupFlows_exists_of_mem {batch : List Packet} {e : Packet} (h : e ∈ batch) :
    ∃ l, (flowKeyOf e, l) ∈ groupFlows batch ∧ e ∈ l := by
  refine ⟨batch.filter (fun p => flowKeyOf p = flowKeyOf e), ?_, ?_⟩
  · exact List.mem_map.mpr ⟨flowKeyOf e, mem_flowKeysAux_of_mem batch [] h, rfl⟩
  · exact List.mem_filter.mpr ⟨h, by simp⟩

theorem mem_groupFlows_key {batch : List Packet} {k : List Char} {l : List Packet}
    (h : (k, l) ∈ groupFlows batch) : ∃ e ∈ batch, flowKeyOf e = k := by
  unfold groupFlows at h
  rcases List.mem_map.mp h with ⟨k', hk', hk⟩
  have h1 : k' = k := congrArg Prod.fst hk
  subst h1
  rcases mem_flowKeysAux_src batch [] hk' with h2 | h3
  · exact absurd h2 (List.not_mem_nil _)
  · exact h3

theorem goFlows_cons_ok {eb : EbMap} {now : ℚ} {g : List Char × List Packet}
    {gs : List (List Char × List Packet)} {al : List Alert}
    (h : goFlows eb now (g :: gs) = .ok al) :
    ∃ s rest, flowStep eb now g = .ok s ∧ goFlows eb now gs = .ok rest ∧ al = s ++ rest := by
  rw [goFlows] at h
  cases h1 : flowStep eb now g with
  | error e => rw [h1] at h; exact absurd h (by simp)
  | ok s =>
    rw [h1] at h
    cases h2 : goFlows eb now gs with
    | error e => rw [h2] at h; exact absurd h (by simp)
    | ok rest =>
      rw [h2] at h
      simp only [Except.ok.injEq] at h
      exact ⟨s, rest, rfl, rfl, h.symm⟩

theorem goFlows_ok_countP {eb : EbMap} {now : ℚ} (q : Alert → Bool) :
    ∀ (gs : List (List Char × List Packet)) (al : List Alert),
      goFlows eb now gs = .ok al →
      al.countP q = (gs.map (fun g => ((flowStep eb now g).toOption.getD []).countP q)).sum := by
  intro gs
  induction gs with
  | nil =>
    intro al h
    simp only [goFlows, Except.ok.injEq] at h
    subst h
    simp
  | cons g gs ih =>
    intro al h
    rcases goFlows_cons_ok h with ⟨s, rest, h1, h2, h3⟩
    subst h3
    rw [List.countP_append, List.map_cons, List.sum_cons, ih rest h2, h1]
    rfl

theorem goFlows_ok_mem {eb : EbMap} {now : ℚ} :
    ∀ {gs : List (List Char × List Packet)} {al : List Alert},
      goFlows eb now gs = .ok al →
      ∀ {g}, g ∈ gs → ∀ {s}, flowStep eb now g = .ok s → ∀ {a}, a ∈ s → a ∈ al := by
  intro gs
  induction gs with
  | nil => intro al _ g hg; exact absurd hg (List.not_mem_nil g)
  | cons g0 gs ih =>
    intro al h g hg s hs a ha
    rcases goFlows_cons_ok h with ⟨s0, rest, h1, h2, h3⟩
    subst h3
    rcases List.mem_cons.mp hg with hg1 | hg2
    · subst hg1
      rw [h1] at hs
      simp only [Except.ok.injEq] at hs
      subst hs
      exact List.mem_append_left _ ha
    · exact List.mem_append_right _ (ih h2 hg2 hs ha)

/-! ## Helper lemmas: ML alert types -/

theorem ml_prefix_ne {s t : String} (h : ¬ "ML Detected: ".data <+: t.data) :
    "ML Detected: " ++ s ≠ t := by
  intro he
  apply h
  rw [← he, String.data_append]
  exact List.prefix_append _ _

theorem processCnn_atype (now : ℚ) (pkts : List Packet) :
    ∀ (preds : List (List ℚ)) (i : ℕ) (eb : EbMap),
      ∀ a ∈ (processCnn now pkts preds i eb).1, ∃ s, a.atype = "ML Detected: " ++ s := by
  intro preds
  induction preds with
  | nil => intro i eb a ha; exact absurd ha (List.not_mem_nil a)
  | cons pred rest ih =>
    intro i eb a ha
    cases pred with
    | nil =>
      simp only [processCnn] at ha
      exact absurd ha (List.not_mem_nil a)
    | cons p0 ptl =>
      simp only [processCnn] at ha
      split at ha
      · rcases List.mem_cons.mp ha with h1 | h2
        · subst h1
          exact ⟨_, rfl⟩
        · exact ih _ _ a h2
      · exact ih _ _ a ha

theorem processSvm_atype (now : ℚ) (pkts : List Packet) :
    ∀ (preds : List ℚ) (i : ℕ),
      ∀ a ∈ processSvm now pkts preds i, ∃ s, a.atype = "ML Detected: " ++ s := by
  intro preds
  induction preds with
  | nil => intro i a ha; exact absurd ha (List.not_mem_nil a)
  | cons pred rest ih =>
    intro i a ha
    simp only [processSvm] at ha
    split at ha
    · rcases List.mem_cons.mp ha with h1 | h2
      · subst h1
        refine ⟨"Suspicious Traffic Pattern", ?_⟩
        rfl
      · exact ih _ a h2
    · exact ih _ a ha

theorem run_ml_atype (m : Models) (features : List (List ℚ)) (pkts : List Packet)
    (eb : EbMap) (now : ℚ) :
    ∀ a ∈ (run_ml_detection m features pkts eb now).1, ∃ s, a.atype = "ML Detected: " ++ s := by
  intro a ha
  unfold run_ml_detection at ha
  split at ha
  · exact absurd ha (List.not_mem_nil a)
  · split at ha
    · split at ha
      · exact absurd ha (List.not_mem_nil a)
      · split at ha
        · exact absurd ha (List.not_mem_nil a)
        · exact processSvm_atype now pkts _ 0 a ha
    · split at ha
      · exact absurd ha (List.not_mem_nil a)
      · rename_i preds hpreds
        split at ha
        · rename_i al eb2 hproc
          refine processCnn_atype now pkts preds 0 eb a ?_
          rw [hproc]
          exact ha
        · rename_i al eb2 hproc hsvm
          refine processCnn_atype now pkts preds 0 eb a ?_
          rw [hproc]
          exact ha
        · rename_i al eb2 f hproc hsvm
          split at ha
          · refine processCnn_atype now pkts preds 0 eb a ?_
            rw [hproc]
            exact ha
          · rcases List.mem_append.mp ha with h1 | h2
            · refine processCnn_atype now pkts preds 0 eb a ?_
              rw [hproc]
              exact h1
            · exact processSvm_atype now pkts _ 0 a h2

theorem mlStage_atype (m : Models) (eb : EbMap) (batch : List Packet) (now : ℚ) :
    ∀ a ∈ (mlStage m eb batch now).1, ∃ s, a.atype = "ML Detected: " ++ s := by
  intro a ha
  unfold mlStage at ha
  split at ha
  · exact run_ml_atype m _ batch eb now a ha
  · exact absurd ha (List.not_mem_nil a)

theorem mlStage_countP_zero (m : Models) (eb : EbMap) (batch : List Packet) (now : ℚ)
    (q : Alert → Bool) (hq : ∀ a, q a → ¬ "ML Detected: ".data <+: a.atype.data) :
    (mlStage m eb batch now).1.countP q = 0 := by
  rw [List.countP_eq_zero]
  intro a ha hqa
  rcases mlStage_atype m eb batch now a ha with ⟨s, hs⟩
  apply hq a hqa
  rw [hs, String.data_append]
  exact List.prefix_append _ _

/-! ## Helper lemmas: port-scan detection counting -/

theorem nodup_keys_mem_unique {κ α : Type} [DecidableEq κ] :
    ∀ {l : List (κ × α)}, (l.map Prod.fst).Nodup →
      ∀ {k : κ} {v1 v2 : α}, (k, v1) ∈ l → (k, v2) ∈ l → v1 = v2 := by
  intro l
  induction l with
  | nil => intro _ k v1 v2 h1; exact absurd h1 (List.not_mem_nil _)
  | cons e l ih =>
    intro hnd k v1 v2 h1 h2
    rw [List.map_cons, List.nodup_cons] at hnd
    rcases List.mem_cons.mp h1 with h1a | h1b
    · rcases List.mem_cons.mp h2 with h2a | h2b
      · rw [← h1a] at h2a
        exact (congrArg Prod.snd h2a).symm
      · exfalso
        apply hnd.1
        rw [← h1a]
        exact List.mem_map.mpr ⟨(k, v2), h2b, rfl⟩
    · rcases List.mem_cons.mp h2 with h2a | h2b
      · exfalso
        apply hnd.1
        rw [← h2a]
        exact List.mem_map.mpr ⟨(k, v1), h1b, rfl⟩
      · exact ih hnd.2 h1b h2b

theorem prefix_append_left {α : Type} (a : List α) {x y : List α} (h : x <+: y) :
    a ++ x <+: a ++ y := by
  rcases h with ⟨t, ht⟩
  exact ⟨t, by rw [List.append_assoc, ht]⟩

theorem scanTagged_self (now : ℚ) (ip : String) (n : ℕ) :
    scanTagged ip (mkScanAlert now ip n) = true := by
  unfold scanTagged mkScanAlert
  rw [Bool.and_eq_true]
  constructor
  · simp
  · rw [List.isPrefixOf_iff_prefix]
    refine ⟨(natStr n).data ++ " different ports in 5 seconds".data, ?_⟩
    simp only [String.data_append, List.append_assoc]

theorem detect_port_scans_eq (pa : List (String × List (ℚ × ℕ))) (now : ℚ) :
    detect_port_scans pa now = pa.filterMap (fun e =>
      if 10 ≤ distinctRecentPorts now e.2 then some (scanAlertOf now e) else none) := rfl

theorem detect_port_scans_mem {pa : List (String × List (ℚ × ℕ))} {now : ℚ} {a : Alert}
    (h : a ∈ detect_port_scans pa now) :
    ∃ e ∈ pa, 10 ≤ distinctRecentPorts now e.2 ∧ a = scanAlertOf now e := by
  rw [detect_port_scans_eq] at h
  rcases List.mem_filterMap.mp h with ⟨e, he, hfe⟩
  by_cases hc : 10 ≤ distinctRecentPorts now e.2
  · rw [if_pos hc] at hfe
    simp only [Option.some.injEq] at hfe
    exact ⟨e, he, hc, hfe.symm⟩
  · rw [if_neg hc] at hfe
    exact absurd hfe (by simp)

theorem detect_port_scans_countP {now : ℚ} {ip : String} {recs : List (ℚ × ℕ)} :
    ∀ {pa : List (String × List (ℚ × ℕ))}, (pa.map Prod.fst).Nodup →
      (ip, recs) ∈ pa →
      (∀ e ∈ pa, e.1 ≠ ip → scanTagged ip (scanAlertOf now e) = false) →
      (detect_port_scans pa now).countP (scanTagged ip)
        = if 10 ≤ distinctRecentPorts now recs then 1 else 0 := by
  intro pa
  induction pa with
  | nil => intro _ hm; exact absurd hm (List.not_mem_nil _)
  | cons e pa ih =>
    intro hnd hm hcoll
    rw [List.map_cons, List.nodup_cons] at hnd
    have hcoll' : ∀ e' ∈ pa, e'.1 ≠ ip → scanTagged ip (scanAlertOf now e') = false :=
      fun e' he' => hcoll e' (List.mem_cons_of_mem _ he')
    have htail0 : ip ∉ pa.map Prod.fst →
        (detect_port_scans pa now).countP (scanTagged ip) = 0 := by
      intro hnotin
      rw [List.countP_eq_zero]
      intro a ha
      rcases detect_port_scans_mem ha with ⟨e', he', _, hae⟩
      have hne : e'.1 ≠ ip := fun hh => hnotin (hh ▸ List.mem_map.mpr ⟨e', he', rfl⟩)
      rw [hae]
      simp [hcoll' e' he' hne]
    rcases List.mem_cons.mp hm with hh | ht
    · have hkey : e.1 = ip := by rw [← hh]
      have hrecs : e.2 = recs := by rw [← hh]
      have hnotin : ip ∉ pa.map Prod.fst := hkey ▸ hnd.1
      by_cases hf : 10 ≤ distinctRecentPorts now recs
      · rw [detect_port_scans_eq,
          List.filterMap_cons_some (by rw [hrecs, if_pos hf]),
          List.countP_cons, ← detect_port_scans_eq, htail0 hnotin, if_pos hf]
        have hsa : scanAlertOf now e = mkScanAlert now ip (distinctRecentPorts now recs) := by
          unfold scanAlertOf
          rw [hkey, hrecs]
        rw [hsa, scanTagged_self]
        simp
      · rw [detect_port_scans_eq,
          List.filterMap_cons_none (by rw [hrecs, if_neg hf]),
          ← detect_port_scans_eq, htail0 hnotin, if_neg hf]
    · have hne : e.1 ≠ ip := fun hh2 => hnd.1 (by
        rw [hh2]
        exact List.mem_map.mpr ⟨(ip, recs), ht, rfl⟩)
      by_cases hf : 10 ≤ distinctRecentPorts now e.2
      · rw [detect_port_scans_eq,
          List.filterMap_cons_some (by rw [if_pos hf]),
          List.countP_cons, ← detect_port_scans_eq, ih hnd.2 ht hcoll',
          hcoll e (List.mem_cons_self _ _) hne]
        simp
      · rw [detect_port_scans_eq,
          List.filterMap_cons_none (by rw [if_neg hf]),
          ← detect_port_scans_eq]
        exact ih hnd.2 ht hcoll'

theorem suspiciousName_cases {q : ℕ} {nm : String} (h : suspiciousName q = some nm) :
    nm = "SSH" ∨ nm = "RDP" ∨ nm = "SMB" := by
  unfold suspiciousName at h
  split_ifs at h
  · exact Or.inl (Option.some.inj h).symm
  · exact Or.inr (Or.inl (Option.some.inj h).symm)
  · exact Or.inr (Or.inr (Option.some.inj h).symm)

theorem stepWatch_some_atype {now : ℚ} {p : Packet} {a : Alert} (h : stepWatch now p = some a) :
    a.atype = "SSH Access Attempt" ∨ a.atype = "RDP Access Attempt"
      ∨ a.atype = "SMB Access Attempt" := by
  unfold stepWatch at h
  split at h
  · rename_i nm hs
    split at h
    · simp only [Option.some.injEq] at h
      subst h
      rcases suspiciousName_cases hs with h1 | h1 | h1 <;> rw [h1]
      · left; rfl
      · right; left; rfl
      · right; right; rfl
    · exact absurd h (by simp)
  · exact absurd h (by simp)

theorem stepWatch_not_scanTagged {now : ℚ} {p : Packet} {a : Alert} (ip : String)
    (h : stepWatch now p = some a) : scanTagged ip a = false := by
  unfold scanTagged
  have hfalse : (a.atype == "Potential Port Scan") = false := by
    rcases stepWatch_some_atype h with h1 | h1 | h1 <;> rw [h1] <;> decide
  rw [hfalse, Bool.false_and]

theorem detect_deauth_attacks_eq (da : List (String × List ℚ)) (now : ℚ) :
    detect_deauth_attacks da now = da.filterMap (fun e =>
      if 5 ≤ (e.2.filter (fun t => now - 3 < t)).length
      then some (mkDeauthAlert now e.1 ((e.2.filter (fun t => now - 3 < t)).length))
      else none) := rfl

theorem detect_deauth_not_scanTagged {da : List (String × List ℚ)} {now : ℚ} (ip : String) :
    ∀ a ∈ detect_deauth_attacks da now, scanTagged ip a = false := by
  intro a ha
  rw [detect_deauth_attacks_eq] at ha
  rcases List.mem_filterMap.mp ha with ⟨e, _, hfe⟩
  by_cases hc : 5 ≤ (e.2.filter (fun t => now - 3 < t)).length
  · rw [if_pos hc] at hfe
    simp only [Option.some.injEq] at hfe
    subst hfe
    unfold scanTagged
    rw [show ((mkDeauthAlert now e.1
      ((e.2.filter (fun t => now - 3 < t)).length)).atype == "Potential Port Scan") = false
      from rfl, Bool.false_and]
  · rw [if_neg hc] at hfe
    exact absurd hfe (by simp)

/-- Claim C1: for every tracked source IP, when the port-access records
within the strict 5-second window hold at least 10 distinct destination
ports, analyze emits exactly one port-scan alert for that IP, and that
alert is the high-severity "Potential Port Scan" alert whose
description cites the distinct-port count and the 5-second window; with
9 or fewer distinct ports no such alert is emitted.  The tracked state
at detection time is the port-access map after the batch update; the
hypotheses state that its keys are distinct (as dict keys are) and that
no other tracked key's alert text collides with this IP's. -/
theorem claim_C1 (st : NetState) (batch : List Packet) (now : ℚ) (ip : String)
    (recs : List (ℚ × ℕ))
    (hb : batch ≠ [])
    (hnd : ((batch.foldl (stepPort now) st.ip_port_access).map Prod.fst).Nodup)
    (hmem : (ip, recs) ∈ batch.foldl (stepPort now) st.ip_port_access)
    (hcoll : ∀ e ∈ batch.foldl (stepPort now) st.ip_port_access, e.1 ≠ ip →
      scanTagged ip (scanAlertOf now e) = false) :
    ((network_analyze st batch now).2.countP (scanTagged ip)
        = if 10 ≤ distinctRecentPorts now recs then 1 else 0)
    ∧ (∀ a ∈ (network_analyze st batch now).2, scanTagged ip a = true →
        a = mkScanAlert now ip (distinctRecentPorts now recs)) := by
  have hout : (network_analyze st batch now).2
      = batch.filterMap (stepWatch now)
        ++ (detect_port_scans (batch.foldl (stepPort now) st.ip_port_access) now
        ++ detect_deauth_attacks (batch.foldl (stepDeauth now) st.deauth_frames) now) := by
    simp only [network_analyze, if_neg hb]
    rw [List.append_assoc]
  constructor
  · rw [hout, List.countP_append, List.countP_append]
    have h1 : (batch.filterMap (stepWatch now)).countP (scanTagged ip) = 0 := by
      rw [List.countP_eq_zero]
      intro a ha
      rcases List.mem_filterMap.mp ha with ⟨p, _, hp⟩
      simp [stepWatch_not_scanTagged ip hp]
    have h3 : (detect_deauth_attacks (batch.foldl (stepDeauth now) st.deauth_frames)
        now).countP (scanTagged ip) = 0 := by
      rw [List.countP_eq_zero]
      intro a ha
      simp [detect_deauth_not_scanTagged ip a ha]
    rw [h1, h3, detect_port_scans_countP hnd hmem hcoll]
    omega
  · intro a ha htag
    rw [hout] at ha
    rcases List.mem_append.mp ha with haw | ha1
    · rcases List.mem_filterMap.mp haw with ⟨p, _, hp⟩
      rw [stepWatch_not_scanTagged ip hp] at htag
      exact absurd htag (by simp)
    · rcases List.mem_append.mp ha1 with has | had
      · rcases detect_port_scans_mem has with ⟨e, he, _, hae⟩
        by_cases hkey : e.1 = ip
        · have he' : (ip, e.2) ∈ batch.foldl (stepPort now) st.ip_port_access := by
            rw [← hkey]
            exact he
          have : e.2 = recs := nodup_keys_mem_unique hnd he' hmem
          rw [hae]
          unfold scanAlertOf
          rw [hkey, this]
        · rw [hae, hcoll e he hkey] at htag
          exact absurd htag (by simp)
      · rw [detect_deauth_not_scanTagged ip a had] at htag
        exact absurd htag (by simp)

/-- Witness for claim C1: a fresh analyzer, one batch of ten packets
from 9.9.9.9 to ten distinct ports; the distinct-port count is 10, so
the emitted alert list holds exactly one tagged alert, the expected
"Potential Port Scan". -/
theorem claim_C1_witness :
    ((network_analyze {} [{ src := "9.9.9.9", dport := 1 }, { src := "9.9.9.9", dport := 2 },
        { src := "9.9.9.9", dport := 3 }, { src := "9.9.9.9", dport := 4 },
        { src := "9.9.9.9", dport := 5 }, { src := "9.9.9.9", dport := 6 },
        { src := "9.9.9.9", dport := 7 }, { src := "9.9.9.9", dport := 8 },
        { src := "9.9.9.9", dport := 9 }, { src := "9.9.9.9", dport := 10 }] 100).2.countP
          (scanTagged "9.9.9.9")
        = if 10 ≤ distinctRecentPorts 100 [(100, 1), (100, 2), (100, 3), (100, 4), (100, 5),
            (100, 6), (100, 7), (100, 8), (100, 9), (100, 10)] then 1 else 0)
    ∧ (∀ a ∈ (network_analyze {} [{ src := "9.9.9.9", dport := 1 }, { src := "9.9.9.9", dport := 2 },
        { src := "9.9.9.9", dport := 3 }, { src := "9.9.9.9", dport := 4 },
        { src := "9.9.9.9", dport := 5 }, { src := "9.9.9.9", dport := 6 },
        { src := "9.9.9.9", dport := 7 }, { src := "9.9.9.9", dport := 8 },
        { src := "9.9.9.9", dport := 9 }, { src := "9.9.9.9", dport := 10 }] 100).2,
        scanTagged "9.9.9.9" a = true →
        a = mkScanAlert 100 "9.9.9.9" (distinctRecentPorts 100 [(100, 1), (100, 2), (100, 3),
          (100, 4), (100, 5), (100, 6), (100, 7), (100, 8), (100, 9), (100, 10)])) :=
  claim_C1 {} _ 100 "9.9.9.9" _ (by decide) (by decide) (by decide) (by decide)

/-! ## Claim C9: reaping tracked state is idempotent -/

theorem filterMap_eq_self {α : Type} {f : α → Option α} :
    ∀ {l : List α}, (∀ a ∈ l, f a = some a) → l.filterMap f = l := by
  intro l
  induction l with
  | nil => intro _; rfl
  | cons a l ih =>
    intro h
    rw [List.filterMap_cons_some (h a (List.mem_cons_self _ _)),
      ih (fun b hb => h b (List.mem_cons_of_mem _ hb))]

theorem cleanFM_idem {κ β : Type} [DecidableEq κ] [DecidableEq β] (q : β → Bool) :
    ∀ l : List (κ × List β),
      ((l.filterMap (fun e => if e.2.filter q = [] then none
          else some (e.1, e.2.filter q))).filterMap (fun e => if e.2.filter q = [] then none
          else some (e.1, e.2.filter q)))
      = l.filterMap (fun e => if e.2.filter q = [] then none else some (e.1, e.2.filter q)) := by
  intro l
  apply filterMap_eq_self
  intro b hb
  rcases List.mem_filterMap.mp hb with ⟨e, _, hfe⟩
  by_cases hc : e.2.filter q = []
  · rw [if_pos hc] at hfe
    exact absurd hfe (by simp)
  · rw [if_neg hc] at hfe
    simp only [Option.some.injEq] at hfe
    subst hfe
    show (if (e.2.filter q).filter q = [] then none
        else some (e.1, (e.2.filter q).filter q)) = some (e.1, e.2.filter q)
    have hff : (e.2.filter q).filter q = e.2.filter q :=
      List.filter_eq_self.mpr (fun a ha => List.of_mem_filter ha)
    rw [hff, if_neg hc]

/-- Claim C9: applying the cleanup twice with the same cutoff leaves
every tracking map (port-access records, deauth records, entity
behaviour) identical to applying it once. -/
theorem claim_C9 (st : NetState) (eb : EbMap) (cutoff : ℚ) :
    cleanup_old_entries (cleanup_old_entries st cutoff) cutoff = cleanup_old_entries st cutoff
    ∧ cleanup_old_data (cleanup_old_data eb cutoff) cutoff = cleanup_old_data eb cutoff := by
  constructor
  · simp only [cleanup_old_entries]
    rw [NetState.mk.injEq]
    exact ⟨cleanFM_idem _ _, cleanFM_idem _ _⟩
  · unfold cleanup_old_data
    rw [List.filter_eq_self]
    intro a ha
    exact (List.mem_filter.mp ha).2

/-! ## Claim C8: score recording trims to the last 10 -/

theorem recordScore_eq (l : List ℚ) (s : ℚ) :
    recordScore l s = (l ++ [s]).drop ((l.length + 1) - 10) := by
  unfold recordScore
  by_cases h : 10 < (l ++ [s]).length
  · rw [if_pos h]
    congr 1
    simp
  · rw [if_neg h]
    simp only [List.length_append, List.length_singleton] at h
    have h0 : (l.length + 1) - 10 = 0 := by omega
    rw [h0, List.drop_zero]

theorem recordScore_length_le (l : List ℚ) (s : ℚ) (h : l.length ≤ 10) :
    (recordScore l s).length ≤ 10 := by
  rw [recordScore_eq, List.length_drop, List.length_append, List.length_singleton]
  omega

theorem foldl_recordScore :
    ∀ (ss : List ℚ) (acc : List ℚ), acc.length ≤ 10 →
      ss.foldl recordScore acc = (acc ++ ss).drop ((acc ++ ss).length - 10) := by
  intro ss
  induction ss with
  | nil =>
    intro acc h
    rw [List.foldl_nil, List.append_nil]
    have h0 : acc.length - 10 = 0 := by omega
    rw [h0, List.drop_zero]
  | cons s rest ih =>
    intro acc h
    rw [List.foldl_cons, ih (recordScore acc s) (recordScore_length_le acc s h),
      recordScore_eq]
    have hd : (acc.length + 1) - 10 ≤ (acc ++ [s]).length := by
      rw [List.length_append, List.length_singleton]
      omega
    rw [← List.drop_append_of_le_length hd, List.drop_drop]
    have hassoc : (acc ++ [s]) ++ rest = acc ++ s :: rest := by
      rw [List.append_assoc, List.singleton_append]
    rw [hassoc]
    congr 1
    simp only [List.length_drop, List.length_append, List.length_singleton, List.length_cons]
    omega

/-- Claim C8: recording a score appends and trims to the last 10, so
after recording 15 scores into an initially empty history, the stored
list is the last 10 of the 15 and the average is their mean (sum over
10). -/
theorem claim_C8 (ss : List ℚ) (h : ss.length = 15) :
    ss.foldl recordScore [] = ss.drop 5
    ∧ averageScore (ss.foldl recordScore []) = (ss.drop 5).sum / 10 := by
  have h1 : ss.foldl recordScore [] = ss.drop 5 := by
    rw [foldl_recordScore ss [] (by simp), List.nil_append, h]
  refine ⟨h1, ?_⟩
  rw [h1]
  unfold averageScore
  rw [List.length_drop, h]
  norm_num

/-- Witness for claim C8 at fifteen concrete scores. -/
theorem claim_C8_witness :
    [(1 : ℚ), 2, 3, 4, 5, 6, 7, 8, 9, 10, 11, 12, 13, 14, 15].foldl recordScore []
        = [(1 : ℚ), 2, 3, 4, 5, 6, 7, 8, 9, 10, 11, 12, 13, 14, 15].drop 5
    ∧ averageScore ([(1 : ℚ), 2, 3, 4, 5, 6, 7, 8, 9, 10, 11, 12, 13, 14, 15].foldl
          recordScore [])
        = ([(1 : ℚ), 2, 3, 4, 5, 6, 7, 8, 9, 10, 11, 12, 13, 14, 15].drop 5).sum / 10 :=
  claim_C8 _ (by decide)

/-! ## Claim C10: events with an empty src -/

/-- Claim C10: an event whose src is the empty string is not recorded
in the port-access tracker nor in the per-IP behaviour tracker, raises
no watchlist-port alert, and still participates in flow aggregation
under the literal empty source value (its flow key starts with the
bare separator). -/
theorem claim_C10 (p : Packet) (hsrc : p.src = "") (now : ℚ)
    (pa : List (String × List (ℚ × ℕ))) (eb : EbMap) (batch : List Packet)
    (hp : p ∈ batch) :
    stepPort now pa p = pa
    ∧ stepEb now eb p = eb
    ∧ stepWatch now p = none
    ∧ flowKeyOf p = ':' :: (p.dst.data ++ ':' :: natChars p.dport)
    ∧ ∃ l, (flowKeyOf p, l) ∈ groupFlows batch ∧ p ∈ l := by
  refine ⟨?_, ?_, ?_, ?_, groupFlows_exists_of_mem hp⟩
  · unfold stepPort
    rw [if_pos hsrc]
  · unfold stepEb
    rw [if_pos hsrc]
  · unfold stepWatch
    split
    · rw [if_neg (fun hx => hx.1 hsrc)]
    · rfl
  · unfold flowKeyOf
    rw [hsrc]
    rfl

/-- Witness for claim C10: a concrete empty-src packet to port 22
inside a one-packet batch. -/
theorem claim_C10_witness :
    stepPort 5 [] { src := "", dst := "10.0.0.1", dport := 22 }
        = ([] : List (String × List (ℚ × ℕ)))
    ∧ stepEb 5 [] { src := "", dst := "10.0.0.1", dport := 22 } = ([] : EbMap)
    ∧ stepWatch 5 { src := "", dst := "10.0.0.1", dport := 22 } = none
    ∧ flowKeyOf { src := "", dst := "10.0.0.1", dport := 22 }
        = ':' :: (("10.0.0.1" : String).data ++ ':' :: natChars 22)
    ∧ ∃ l, (flowKeyOf { src := "", dst := "10.0.0.1", dport := 22 }, l)
          ∈ groupFlows [{ src := "", dst := "10.0.0.1", dport := 22 }]
        ∧ ({ src := "", dst := "10.0.0.1", dport := 22 } : Packet) ∈ l :=
  claim_C10 _ rfl 5 [] [] _ (List.mem_singleton.mpr rfl)

/-! ## Claim C5: watchlist-port access attempts -/

/-- Counterexample to claim C5 as stated: an event with dst_port 22
whose src is the empty string (the default for a missing field, hence
unparseable, which the claim says counts as non-private) produces no
alert at all — the source guards the watchlist alert behind a truthy
src (`and src_ip`), so the claimed medium-severity access-attempt
alert is not emitted. -/
theorem claim_C5_counterexample :
    (network_analyze {} [{ src := "", dport := 22 }] 0).2 = [] := by decide

/-- Claim C5 (amended): for every event in the batch whose dst_port is
on the watchlist 22/3389/445 and whose src is non-empty, contains no
':' (so it is not an IPv6 literal — a private IPv6 src such as "::1"
is suppressed by the program's is_private check and lies outside this
statement) and is non-private (a non-empty colon-free unparseable src
still counts as non-private), analyze emits the immediate
medium-severity access-attempt alert for that event, with no
windowing.  Events with the empty default src are skipped by the
truthy-src guard.  On colon-free strings the modelled IPv4-only parse
agrees exactly with ipaddress.ip_address. -/
theorem claim_C5_amended (st : NetState) (batch : List Packet) (now : ℚ) (p : Packet)
    (hp : p ∈ batch) (hport : p.dport = 22 ∨ p.dport = 3389 ∨ p.dport = 445)
    (hsrc : p.src ≠ "") (_hcf : ':' ∉ p.src.data)
    (hpriv : is_internal_ip p.src = false) :
    ∃ nm, suspiciousName p.dport = some nm ∧
      { timestamp := now, atype := nm ++ " Access Attempt", severity := "medium",
        source := "network_traffic",
        description := "External IP " ++ p.src ++ " attempting to connect to "
          ++ nm ++ " port " ++ natStr p.dport : Alert } ∈ (network_analyze st batch now).2 := by
  have hb : batch ≠ [] := List.ne_nil_of_mem hp
  have hnm : ∃ nm, suspiciousName p.dport = some nm := by
    rcases hport with h | h | h <;> rw [h] <;> exact ⟨_, rfl⟩
  rcases hnm with ⟨nm, hnm⟩
  refine ⟨nm, hnm, ?_⟩
  have hout : (network_analyze st batch now).2
      = batch.filterMap (stepWatch now)
        ++ (detect_port_scans (batch.foldl (stepPort now) st.ip_port_access) now
        ++ detect_deauth_attacks (batch.foldl (stepDeauth now) st.deauth_frames) now) := by
    simp only [network_analyze, if_neg hb]
    rw [List.append_assoc]
  rw [hout]
  apply List.mem_append_left
  apply List.mem_filterMap.mpr
  refine ⟨p, hp, ?_⟩
  unfold stepWatch
  simp only [hnm]
  rw [if_pos ⟨hsrc, by rw [hpriv]; exact Bool.false_ne_true⟩]

/-- Witness for amended claim C5: a public source 8.8.8.8 hitting port
22 yields the SSH access-attempt alert. -/
theorem claim_C5_witness :
    ∃ nm, suspiciousName (Packet.dport { src := "8.8.8.8", dport := 22 }) = some nm ∧
      { timestamp := (7 : ℚ), atype := nm ++ " Access Attempt", severity := "medium",
        source := "network_traffic",
        description := "External IP " ++ Packet.src { src := "8.8.8.8", dport := 22 }
          ++ " attempting to connect to " ++ nm ++ " port "
          ++ natStr (Packet.dport { src := "8.8.8.8", dport := 22 }) : Alert }
        ∈ (network_analyze {} [{ src := "8.8.8.8", dport := 22 }] 7).2 :=
  claim_C5_amended {} _ 7 _ (List.mem_singleton.mpr rfl) (by decide) (by decide) (by decide)
    (by decide)

/-! ## Claim C7: packet history bound and eviction -/

theorem trimHistory_eq (h : List Packet) : trimHistory h = h.drop (h.length - 1000) := by
  unfold trimHistory
  by_cases hc : 1000 < h.length
  · rw [if_pos hc]
  · rw [if_neg hc]
    have h0 : h.length - 1000 = 0 := by omega
    rw [h0, List.drop_zero]

theorem trimHistory_length_le (h : List Packet) : (trimHistory h).length ≤ 1000 := by
  rw [trimHistory_eq, List.length_drop]
  omega

theorem ml_analyze_ok_parts {m : Models} {st : MLState} {batch : List Packet} {now : ℚ}
    {st' : MLState} {al : List Alert} (hb : batch ≠ [])
    (h : ml_analyze m st batch now = .ok (st', al)) :
    ∃ fa, analyze_flows (mlStage m (batch.foldl (stepEb now) st.ip_behavior) batch now).2
        batch now = .ok fa
      ∧ al = (mlStage m (batch.foldl (stepEb now) st.ip_behavior) batch now).1 ++ fa
      ∧ st'.packet_history = trimHistory (st.packet_history ++ batch)
      ∧ st'.ip_behavior = cleanup_old_data
          (mlStage m (batch.foldl (stepEb now) st.ip_behavior) batch now).2 (now - 3600) := by
  unfold ml_analyze at h
  rw [if_neg hb] at h
  cases hfa : analyze_flows (mlStage m (batch.foldl (stepEb now) st.ip_behavior) batch now).2
      batch now with
  | error e =>
    rw [hfa] at h
    exact absurd h (by simp)
  | ok fa =>
    rw [hfa] at h
    simp only [Except.ok.injEq, Prod.mk.injEq] at h
    exact ⟨fa, rfl, h.2.symm, by rw [← h.1], by rw [← h.1]⟩

theorem drop_last_append {α : Type} (x r : List α) :
    (x.drop (x.length - 1000) ++ r).drop ((x.drop (x.length - 1000) ++ r).length - 1000)
      = (x ++ r).drop ((x ++ r).length - 1000) := by
  have hd : x.length - 1000 ≤ x.length := by omega
  rw [← List.drop_append_of_le_length hd, List.drop_drop]
  have h2 : x.length - 1000 + (((x ++ r).drop (x.length - 1000)).length - 1000)
      = (x ++ r).length - 1000 := by
    simp only [List.length_drop, List.length_append]
    omega
  rw [h2]

theorem foldAnalyze_history (m : Models) :
    ∀ (bs : List (List Packet × ℚ)) (st st' : MLState),
      st.packet_history.length ≤ 1000 →
      foldAnalyze m st bs = .ok st' →
      st'.packet_history = (st.packet_history ++ (bs.map Prod.fst).join).drop
        ((st.packet_history ++ (bs.map Prod.fst).join).length - 1000) := by
  intro bs
  induction bs with
  | nil =>
    intro st st' hlen h
    simp only [foldAnalyze, Except.ok.injEq] at h
    subst h
    simp only [List.map_nil, List.join_nil, List.append_nil]
    have h0 : st.packet_history.length - 1000 = 0 := by omega
    rw [h0, List.drop_zero]
  | cons bt rest ih =>
    rcases bt with ⟨b, t⟩
    intro st st' hlen h
    simp only [foldAnalyze] at h
    cases hml : ml_analyze m st b t with
    | error e =>
      rw [hml] at h
      exact absurd h (by simp)
    | ok r =>
      rw [hml] at h
      rcases r with ⟨st1, al⟩
      have hh : st1.packet_history = trimHistory (st.packet_history ++ b) := by
        by_cases hb : b = []
        · subst hb
          unfold ml_analyze at hml
          rw [if_pos rfl] at hml
          simp only [Except.ok.injEq, Prod.mk.injEq] at hml
          rw [← hml.1, List.append_nil, trimHistory_eq]
          have h0 : st.packet_history.length - 1000 = 0 := by omega
          rw [h0, List.drop_zero]
        · rcases ml_analyze_ok_parts hb hml with ⟨fa, _, _, hh, _⟩
          exact hh
      have hlen1 : st1.packet_history.length ≤ 1000 := by
        rw [hh]
        exact trimHistory_length_le _
      rw [ih st1 st' hlen1 h, hh, trimHistory_eq]
      simp only [List.map_cons, List.join_cons]
      rw [← List.append_assoc]
      exact drop_last_append (st.packet_history ++ b) _

/-- Claim C7: starting from a fresh analyzer, over any successful
sequence of analyze calls the packet history length never exceeds
1000, and once the total number of ingested events is 1500 the history
is exactly the most recent 1000 events in arrival order (the
concatenated stream with its first 500 events evicted). -/
theorem claim_C7 (m : Models) (bs : List (List Packet × ℚ)) (st' : MLState)
    (h : foldAnalyze m { packet_history := [], ip_behavior := [] } bs = .ok st') :
    st'.packet_history.length ≤ 1000
    ∧ ((bs.map Prod.fst).join.length = 1500 →
        st'.packet_history.length = 1000
        ∧ st'.packet_history = (bs.map Prod.fst).join.drop 500) := by
  have hh := foldAnalyze_history m bs _ st' (by simp) h
  simp only [List.nil_append] at hh
  constructor
  · rw [hh, List.length_drop]
    omega
  · intro h1500
    constructor
    · rw [hh, List.length_drop, h1500]
    · rw [hh, h1500]

/-! ## Flow analysis success on colon-free batches -/

theorem flowStep_eval {eb : EbMap} {now : ℚ} (g : List Char × List Packet)
    (sa sb sc : List Char) (p : ℕ)
    (hsplit : splitSep ':' g.1 = [sa, sb, sc]) (hparse : pyIntOfChars sc = some p) :
    flowStep eb now g = .ok (
      (if 10 < g.2.length ∧ (p = 22 ∨ p = 23 ∨ p = 3389 ∨ p = 445)
        then [mkBruteAlert now sa sb p] else [])
      ++ (if ¬ is_internal_ip (String.mk sb) ∧ 100000 < (g.2.map Packet.size).sum
        then [mkLargeAlert now sa sb] else [])
      ++ (match lookupA eb (String.mk sa) with
        | some b => if b.scores.length ≠ 0 ∧ (0.85 : ℚ) < averageScore b.scores
            then [mkPersistAlert now sa (averageScore b.scores)] else []
        | none => [])) := by
  unfold flowStep
  rw [hsplit]
  simp only [hparse]

theorem goFlows_ok_of_all {eb : EbMap} {now : ℚ} :
    ∀ gs : List (List Char × List Packet),
      (∀ g ∈ gs, ∃ s, flowStep eb now g = .ok s) →
      ∃ al, goFlows eb now gs = .ok al := by
  intro gs
  induction gs with
  | nil => intro _; exact ⟨[], rfl⟩
  | cons g gs ih =>
    intro h
    obtain ⟨s, hs⟩ := h g (List.mem_cons_self _ _)
    obtain ⟨al, hal⟩ := ih (fun g' hg' => h g' (List.mem_cons_of_mem _ hg'))
    refine ⟨s ++ al, ?_⟩
    rw [goFlows, hs, hal]

theorem analyze_flows_ok_of_colon_free (eb : EbMap) (batch : List Packet) (now : ℚ)
    (hcf : ∀ e ∈ batch, ':' ∉ e.src.data ∧ ':' ∉ e.dst.data) :
    ∃ al, analyze_flows eb batch now = .ok al := by
  apply goFlows_ok_of_all
  intro g hg
  obtain ⟨e, he, hk⟩ := mem_groupFlows_key hg
  refine ⟨_, flowStep_eval g e.src.data e.dst.data (natChars e.dport) e.dport ?_
    (pyIntOfChars_natChars _)⟩
  rw [← hk]
  exact splitSep_flowKey e (hcf e he).1 (hcf e he).2

theorem ml_analyze_ok_of_colon_free (m : Models) (st : MLState) (batch : List Packet)
    (now : ℚ) (hcf : ∀ e ∈ batch, ':' ∉ e.src.data ∧ ':' ∉ e.dst.data) :
    ∃ r, ml_analyze m st batch now = .ok r := by
  by_cases hb : batch = []
  · subst hb
    exact ⟨(st, []), by unfold ml_analyze; rw [if_pos rfl]⟩
  · obtain ⟨fa, hfa⟩ := analyze_flows_ok_of_colon_free
      (mlStage m (batch.foldl (stepEb now) st.ip_behavior) batch now).2 batch now hcf
    refine ⟨(MLState.mk (trimHistory (st.packet_history ++ batch))
        (cleanup_old_data
          (mlStage m (batch.foldl (stepEb now) st.ip_behavior) batch now).2 (now - 3600)),
        (mlStage m (batch.foldl (stepEb now) st.ip_behavior) batch now).1 ++ fa), ?_⟩
    unfold ml_analyze
    rw [if_neg hb, hfa]

theorem foldAnalyze_ok_of_colon_free (m : Models) :
    ∀ bs : List (List Packet × ℚ),
      (∀ bt ∈ bs, ∀ e ∈ bt.1, ':' ∉ e.src.data ∧ ':' ∉ e.dst.data) →
      ∀ st, ∃ st', foldAnalyze m st bs = .ok st' := by
  intro bs
  induction bs with
  | nil => intro _ st; exact ⟨st, rfl⟩
  | cons bt rest ih =>
    rcases bt with ⟨b, t⟩
    intro h st
    obtain ⟨r, hr⟩ := ml_analyze_ok_of_colon_free m st b t (h (b, t) (List.mem_cons_self _ _))
    obtain ⟨st', hst'⟩ := ih (fun bt' hbt' => h bt' (List.mem_cons_of_mem _ hbt')) r.1
    refine ⟨st', ?_⟩
    simp only [foldAnalyze]
    rw [hr]
    exact hst'

/-- Witness for claim C7: thirty successful calls of fifty packets
each (1500 events in total); the resulting history length is exactly
1000, holding the most recent 1000 events. -/
theorem claim_C7_witness :
    ∃ st', foldAnalyze { cnn := none, svm := none } { packet_history := [], ip_behavior := [] }
        (List.replicate 30 ((List.replicate 50
          ({ src := "1.2.3.4", dst := "5.6.7.8", dport := 80 } : Packet)), (100 : ℚ)))
        = .ok st'
      ∧ st'.packet_history.length ≤ 1000
      ∧ (((List.replicate 30 ((List.replicate 50
            ({ src := "1.2.3.4", dst := "5.6.7.8", dport := 80 } : Packet)), (100 : ℚ))).map
              Prod.fst).join.length = 1500 →
          st'.packet_history.length = 1000
          ∧ st'.packet_history = (((List.replicate 30 ((List.replicate 50
              ({ src := "1.2.3.4", dst := "5.6.7.8", dport := 80 } : Packet)), (100 : ℚ))).map
                Prod.fst).join).drop 500) := by
  obtain ⟨st', h⟩ := foldAnalyze_ok_of_colon_free { cnn := none, svm := none }
    (List.replicate 30 ((List.replicate 50
      ({ src := "1.2.3.4", dst := "5.6.7.8", dport := 80 } : Packet)), (100 : ℚ)))
    (by decide) { packet_history := [], ip_behavior := [] }
  exact ⟨st', h, claim_C7 { cnn := none, svm := none } _ st' h⟩

/-! ## Per-flow counting machinery -/

theorem groupFlows_map_fst (batch : List Packet) :
    (groupFlows batch).map Prod.fst = flowKeysAux [] batch := by
  unfold groupFlows
  rw [List.map_map]
  have h : (Prod.fst ∘ fun k => (k, batch.filter (fun p => flowKeyOf p = k)))
      = id := rfl
  rw [h, List.map_id]

theorem flowStep_ok_inv {eb : EbMap} {now : ℚ} {g : List Char × List Packet} {s : List Alert}
    (h : flowStep eb now g = .ok s) :
    ∃ sa sb sc p, splitSep ':' g.1 = [sa, sb, sc] ∧ pyIntOfChars sc = some p
      ∧ s = (if 10 < g.2.length ∧ (p = 22 ∨ p = 23 ∨ p = 3389 ∨ p = 445)
          then [mkBruteAlert now sa sb p] else [])
        ++ (if ¬ is_internal_ip (String.mk sb) ∧ 100000 < (g.2.map Packet.size).sum
          then [mkLargeAlert now sa sb] else [])
        ++ (match lookupA eb (String.mk sa) with
          | some b => if b.scores.length ≠ 0 ∧ (0.85 : ℚ) < averageScore b.scores
              then [mkPersistAlert now sa (averageScore b.scores)] else []
          | none => []) := by
  unfold flowStep at h
  split at h
  · rename_i sa sb sc hsplit
    split at h
    · exact absurd h (by simp)
    · rename_i p hparse
      simp only [Except.ok.injEq] at h
      exact ⟨sa, sb, sc, p, hsplit, hparse, h.symm⟩
  · exact absurd h (by simp)

theorem goFlows_countP_eq {eb : EbMap} {now : ℚ} (q : Alert → Bool)
    (cnt : List Char × List Packet → ℕ) :
    ∀ (gs : List (List Char × List Packet)) (al : List Alert),
      goFlows eb now gs = .ok al →
      (∀ g ∈ gs, ∀ s, flowStep eb now g = .ok s → s.countP q = cnt g) →
      al.countP q = (gs.map cnt).sum := by
  intro gs
  induction gs with
  | nil =>
    intro al h _
    simp only [goFlows, Except.ok.injEq] at h
    subst h
    simp
  | cons g gs ih =>
    intro al h hc
    rcases goFlows_cons_ok h with ⟨s, rest, h1, h2, h3⟩
    subst h3
    rw [List.countP_append, hc g (List.mem_cons_self _ _) s h1,
      ih rest h2 (fun g' hg' => hc g' (List.mem_cons_of_mem _ hg')),
      List.map_cons, List.sum_cons]

theorem sum_map_ite_eq_countP {α : Type} (p : α → Prop) [DecidablePred p] :
    ∀ l : List α, (l.map (fun a => if p a then 1 else 0)).sum = l.countP (fun a => decide (p a)) := by
  intro l
  induction l with
  | nil => rfl
  | cons a l ih =>
    rw [List.map_cons, List.sum_cons, List.countP_cons, ih]
    by_cases h : p a
    · simp [h, Nat.add_comm]
    · simp [h]

theorem bruteAlertOfKey_eval {now : ℚ} {k sa sb sc : List Char} {p : ℕ}
    (hsplit : splitSep ':' k = [sa, sb, sc]) (hparse : pyIntOfChars sc = some p) :
    bruteAlertOfKey now k = mkBruteAlert now sa sb p := by
  unfold bruteAlertOfKey
  rw [hsplit]
  simp only [hparse]

theorem mkLargeAlert_ne_brute (now now' : ℚ) (a b c d : List Char) (p : ℕ) :
    mkLargeAlert now a b ≠ mkBruteAlert now' c d p := by
  intro h
  have h1 := congrArg Alert.atype h
  have h2 : ("Large Data Transfer" : String) = "Potential Brute Force" := h1
  exact absurd h2 (by decide)

theorem mkPersistAlert_ne_brute (now now' : ℚ) (a c d : List Char) (x : ℚ) (p : ℕ) :
    mkPersistAlert now a x ≠ mkBruteAlert now' c d p := by
  intro h
  have h1 := congrArg Alert.atype h
  have h2 : ("Persistent Anomalous Behavior" : String) = "Potential Brute Force" := h1
  exact absurd h2 (by decide)

theorem countP_key_eq_one {κ α : Type} [DecidableEq κ] :
    ∀ {l : List (κ × α)}, (l.map Prod.fst).Nodup → ∀ {k : κ}, k ∈ l.map Prod.fst →
      l.countP (fun g => decide (g.1 = k)) = 1 := by
  intro l
  induction l with
  | nil => intro _ k hk; exact absurd hk (by simp)
  | cons e l ih =>
    intro hnd k hk
    rw [List.map_cons, List.nodup_cons] at hnd
    rw [List.map_cons] at hk
    rw [List.countP_cons]
    rcases List.mem_cons.mp hk with h1 | h2
    · have hz : l.countP (fun g => decide (g.1 = k)) = 0 := by
        rw [List.countP_eq_zero]
        intro g hg
        simp only [decide_eq_true_eq]
        intro hgk
        exact hnd.1 (h1 ▸ hgk ▸ List.mem_map.mpr ⟨g, hg, rfl⟩)
      rw [hz]
      simp [h1.symm]
    · have hne : e.1 ≠ k := by
        intro hh
        exact hnd.1 (hh ▸ h2)
      rw [ih hnd.2 h2]
      simp [hne]

/-- Claim C2: when a batch holds more than 10 events sharing one flow
key whose port component is 22, 23, 3389 or 445, and the analyze call
returns an alert list, that list contains exactly one alert equal to
the high-severity "Potential Brute Force" alert for that flow.  The
collision hypothesis rules out a different flow key whose unpacked
parts happen to print the same alert text (possible only when a field
embeds the separator). -/
theorem claim_C2 (m : Models) (st : MLState) (batch : List Packet) (now : ℚ)
    (st' : MLState) (alerts : List Alert) (key sa sb sc : List Char) (p : ℕ)
    (hok : ml_analyze m st batch now = .ok (st', alerts))
    (hsplit : splitSep ':' key = [sa, sb, sc])
    (hparse : pyIntOfChars sc = some p)
    (hport : p = 22 ∨ p = 23 ∨ p = 3389 ∨ p = 445)
    (hcount : 10 < batch.countP (fun e => flowKeyOf e = key))
    (hcoll : ∀ g ∈ groupFlows batch, g.1 ≠ key →
      bruteAlertOfKey now g.1 ≠ mkBruteAlert now sa sb p) :
    alerts.countP (fun a => a == mkBruteAlert now sa sb p) = 1
    ∧ (mkBruteAlert now sa sb p).severity = "high"
    ∧ (mkBruteAlert now sa sb p).atype = "Potential Brute Force" := by
  refine ⟨?_, rfl, rfl⟩
  have hpos : 0 < batch.countP (fun e => decide (flowKeyOf e = key)) := by omega
  obtain ⟨e0, he0, hke0⟩ := List.countP_pos.mp hpos
  have hb : batch ≠ [] := List.ne_nil_of_mem he0
  obtain ⟨fa, hfa, hal, _, _⟩ := ml_analyze_ok_parts hb hok
  subst hal
  rw [List.countP_append]
  have hml : (mlStage m (batch.foldl (stepEb now) st.ip_behavior) batch now).1.countP
      (fun a => a == mkBruteAlert now sa sb p) = 0 := by
    apply mlStage_countP_zero
    intro a hqa
    have ha : a = mkBruteAlert now sa sb p := by simpa using hqa
    subst ha
    show ¬ "ML Detected: ".data <+: ("Potential Brute Force" : String).data
    decide
  rw [hml]
  unfold analyze_flows at hfa
  rw [goFlows_countP_eq (fun a => a == mkBruteAlert now sa sb p)
    (fun g => if g.1 = key then 1 else 0) (groupFlows batch) fa hfa ?flowcount]
  case _ =>
    rw [sum_map_ite_eq_countP (fun g => g.1 = key) (groupFlows batch),
      countP_key_eq_one (groupFlows_keys_nodup batch)]
    rw [groupFlows_map_fst]
    have : flowKeyOf e0 = key := of_decide_eq_true hke0
    exact this ▸ mem_flowKeysAux_of_mem batch [] he0
  case flowcount =>
    intro g hg s hs
    obtain ⟨sa', sb', sc', p', hsplit', hparse', hseq⟩ := flowStep_ok_inv hs
    by_cases hk : g.1 = key
    · rw [hk, hsplit] at hsplit'
      have hparts : sa = sa' ∧ sb = sb' ∧ sc = sc' := by simpa using hsplit'
      obtain ⟨hsa, hsb, hsc⟩ := hparts
      subst hsa
      subst hsb
      subst hsc
      rw [hparse] at hparse'
      have hp : p = p' := by simpa using hparse'
      subst hp
      have hlen : 10 < g.2.length := by
        rcases g with ⟨gk, gpkts⟩
        simp only at hk
        subst hk
        have := mem_groupFlows_filter hg
        simp only at this
        rw [this, ← List.countP_eq_length_filter]
        exact hcount
      rw [hseq, List.countP_append, List.countP_append]
      have h1 : (if 10 < g.2.length ∧ (p = 22 ∨ p = 23 ∨ p = 3389 ∨ p = 445)
          then [mkBruteAlert now sa sb p] else []).countP
            (fun a => a == mkBruteAlert now sa sb p) = 1 := by
        rw [if_pos ⟨hlen, hport⟩]
        simp
      have h2 : (if ¬ is_internal_ip (String.mk sb) ∧ 100000 < (g.2.map Packet.size).sum
          then [mkLargeAlert now sa sb] else []).countP
            (fun a => a == mkBruteAlert now sa sb p) = 0 := by
        split
        · simp [mkLargeAlert_ne_brute]
        · rfl
      have h3 : (match lookupA (mlStage m (batch.foldl (stepEb now) st.ip_behavior)
            batch now).2 (String.mk sa) with
          | some b => if b.scores.length ≠ 0 ∧ (0.85 : ℚ) < averageScore b.scores
              then [mkPersistAlert now sa (averageScore b.scores)] else []
          | none => []).countP (fun a => a == mkBruteAlert now sa sb p) = 0 := by
        split
        · split
          · simp [mkPersistAlert_ne_brute]
          · rfl
        · rfl
      rw [h1, h2, h3]
      show 1 + 0 + 0 = if g.1 = key then 1 else 0
      rw [if_pos hk]
    · rw [hseq, List.countP_append, List.countP_append]
      have h1 : (if 10 < g.2.length ∧ (p' = 22 ∨ p' = 23 ∨ p' = 3389 ∨ p' = 445)
          then [mkBruteAlert now sa' sb' p'] else []).countP
            (fun a => a == mkBruteAlert now sa sb p) = 0 := by
        split
        · have hne : mkBruteAlert now sa' sb' p' ≠ mkBruteAlert now sa sb p := by
            rw [← bruteAlertOfKey_eval hsplit' hparse']
            exact hcoll g hg hk
          simp [hne]
        · rfl
      have h2 : (if ¬ is_internal_ip (String.mk sb') ∧ 100000 < (g.2.map Packet.size).sum
          then [mkLargeAlert now sa' sb'] else []).countP
            (fun a => a == mkBruteAlert now sa sb p) = 0 := by
        split
        · simp [mkLargeAlert_ne_brute]
        · rfl
      have h3 : (match lookupA (mlStage m (batch.foldl (stepEb now) st.ip_behavior)
            batch now).2 (String.mk sa') with
          | some b => if b.scores.length ≠ 0 ∧ (0.85 : ℚ) < averageScore b.scores
              then [mkPersistAlert now sa' (averageScore b.scores)] else []
          | none => []).countP (fun a => a == mkBruteAlert now sa sb p) = 0 := by
        split
        · split
          · simp [mkPersistAlert_ne_brute]
          · rfl
        · rfl
      rw [h1, h2, h3]
      show 0 + 0 + 0 = if g.1 = key then 1 else 0
      rw [if_neg hk]

/-- Witness for claim C2: eleven identical packets to port 22 form one
flow; the returned list holds exactly one brute-force alert for it. -/
theorem claim_C2_witness :
    ([mkBruteAlert 5 "8.8.8.8".data "9.9.9.9".data 22] : List Alert).countP
        (fun a => a == mkBruteAlert 5 "8.8.8.8".data "9.9.9.9".data 22) = 1
    ∧ (mkBruteAlert 5 "8.8.8.8".data "9.9.9.9".data 22).severity = "high"
    ∧ (mkBruteAlert 5 "8.8.8.8".data "9.9.9.9".data 22).atype = "Potential Brute Force" :=
  claim_C2 { cnn := none, svm := none } { packet_history := [], ip_behavior := [] }
    (List.replicate 11 { src := "8.8.8.8", dst := "9.9.9.9", dport := 22 }) 5
    (MLState.mk (List.replicate 11 { src := "8.8.8.8", dst := "9.9.9.9", dport := 22 })
      [("8.8.8.8", { packets := 11, last_seen := 5, scores := [] })])
    [mkBruteAlert 5 "8.8.8.8".data "9.9.9.9".data 22]
    ("8.8.8.8:9.9.9.9:22".data) "8.8.8.8".data "9.9.9.9".data "22".data 22
    (by with_unfolding_all rfl) (by decide) (by decide) (by decide) (by decide) (by decide)

/-- Claim C6: for a flow whose destination component is unparseable as
an IP address, the destination counts as non-private (fail-open), so
when the analyze call returns and the flow's summed sizes exceed
100000 bytes, the medium-severity Large Data Transfer alert for that
flow is in the returned list. -/
theorem claim_C6 (m : Models) (st : MLState) (batch : List Packet) (now : ℚ)
    (st' : MLState) (alerts : List Alert) (key sa sb sc : List Char) (p : ℕ)
    (pkts : List Packet)
    (hok : ml_analyze m st batch now = .ok (st', alerts))
    (hg : (key, pkts) ∈ groupFlows batch)
    (hsplit : splitSep ':' key = [sa, sb, sc])
    (hparse : pyIntOfChars sc = some p)
    (hunparse : parseIPv4 (String.mk sb) = none)
    (hsum : 100000 < (pkts.map Packet.size).sum) :
    mkLargeAlert now sa sb ∈ alerts
    ∧ (mkLargeAlert now sa sb).severity = "medium"
    ∧ is_internal_ip (String.mk sb) = false := by
  have hb : batch ≠ [] := by
    obtain ⟨e, he, _⟩ := mem_groupFlows_key hg
    exact List.ne_nil_of_mem he
  obtain ⟨fa, hfa, hal, _, _⟩ := ml_analyze_ok_parts hb hok
  subst hal
  have hint : is_internal_ip (String.mk sb) = false := by
    unfold is_internal_ip
    rw [hunparse]
  refine ⟨?_, rfl, hint⟩
  apply List.mem_append_right
  unfold analyze_flows at hfa
  refine goFlows_ok_mem hfa hg (flowStep_eval (key, pkts) sa sb sc p hsplit hparse) ?_
  apply List.mem_append_left
  apply List.mem_append_right
  rw [if_pos ⟨by rw [hint]; exact Bool.false_ne_true, hsum⟩]
  exact List.mem_singleton.mpr rfl

/-- Witness for claim C6: two packets to the unparseable destination
"evil.example" totalling 110001 bytes raise the large-transfer alert. -/
theorem claim_C6_witness :
    mkLargeAlert 5 "1.2.3.4".data "evil.example".data
        ∈ [mkLargeAlert 5 "1.2.3.4".data "evil.example".data]
    ∧ (mkLargeAlert 5 "1.2.3.4".data "evil.example".data).severity = "medium"
    ∧ is_internal_ip (String.mk "evil.example".data) = false :=
  claim_C6 { cnn := none, svm := none } { packet_history := [], ip_behavior := [] }
    [{ src := "1.2.3.4", dst := "evil.example", size := 60000 },
     { src := "1.2.3.4", dst := "evil.example", size := 50001 }] 5
    (MLState.mk
      [{ src := "1.2.3.4", dst := "evil.example", size := 60000 },
       { src := "1.2.3.4", dst := "evil.example", size := 50001 }]
      [("1.2.3.4", { packets := 2, last_seen := 5, scores := [] })])
    [mkLargeAlert 5 "1.2.3.4".data "evil.example".data]
    ("1.2.3.4:evil.example:0".data) "1.2.3.4".data "evil.example".data "0".data 0
    ([{ src := "1.2.3.4", dst := "evil.example", size := 60000 },
      { src := "1.2.3.4", dst := "evil.example", size := 50001 }])
    (by with_unfolding_all rfl) (by decide) (by decide) (by decide) (by decide) (by decide)

/-! ## Claim C4: persistent-anomaly alerts fire per flow, not per IP -/

theorem persistTagged_mkBrute (ip : String) (now : ℚ) (a b : List Char) (p : ℕ) :
    persistTagged ip (mkBruteAlert now a b p) = false := by
  unfold persistTagged
  rw [show ((mkBruteAlert now a b p).atype == "Persistent Anomalous Behavior") = false
    from rfl, Bool.false_and]

theorem persistTagged_mkLarge (ip : String) (now : ℚ) (a b : List Char) :
    persistTagged ip (mkLargeAlert now a b) = false := by
  unfold persistTagged
  rw [show ((mkLargeAlert now a b).atype == "Persistent Anomalous Behavior") = false
    from rfl, Bool.false_and]

theorem persistTagged_self (ip : String) (now : ℚ) (x : ℚ) :
    persistTagged ip (mkPersistAlert now ip.data x) = true := by
  unfold persistTagged mkPersistAlert
  rw [Bool.and_eq_true]
  constructor
  · simp
  · rw [List.isPrefixOf_iff_prefix]
    show (("IP " ++ ip ++ " shows") : String).data <+: _
    have hmk : String.mk ip.data = ip := rfl
    rw [hmk]
    have hs : (" shows persistent anomalous behavior (score: " : String)
        = " shows" ++ " persistent anomalous behavior (score: " := by decide
    rw [hs]
    refine ⟨(" persistent anomalous behavior (score: " ++ fmt2 x ++ ")" : String).data, ?_⟩
    simp only [String.data_append, List.append_assoc]

/-- Claim C4 (amended): the persistent-anomaly check runs once per
flow of the current batch, so an IP whose recorded average score
exceeds 0.85 receives one high-severity "Persistent Anomalous
Behavior" alert per flow it sources in this batch — several when it
sources several flows, none when it sources none — rather than one per
IP.  The behaviour map consulted is the one after this call's
batch update and ML score recording. -/
theorem claim_C4 (m : Models) (st : MLState) (batch : List Packet) (now : ℚ)
    (st' : MLState) (alerts : List Alert) (ip : String) (b : IpBehavior)
    (hok : ml_analyze m st batch now = .ok (st', alerts))
    (hb : lookupA (mlStage m (batch.foldl (stepEb now) st.ip_behavior) batch now).2 ip
      = some b)
    (hscores : b.scores.length ≠ 0)
    (havg : (0.85 : ℚ) < averageScore b.scores)
    (hcoll : ∀ g ∈ groupFlows batch, flowSrcOf g.1 ≠ ip.data → ∀ a,
      persistAlertOf (mlStage m (batch.foldl (stepEb now) st.ip_behavior) batch now).2
        now g.1 = some a → persistTagged ip a = false) :
    alerts.countP (persistTagged ip)
      = (groupFlows batch).countP (fun g => flowSrcOf g.1 = ip.data) := by
  by_cases hbb : batch = []
  · subst hbb
    unfold ml_analyze at hok
    rw [if_pos rfl] at hok
    simp only [Except.ok.injEq, Prod.mk.injEq] at hok
    rw [← hok.2]
    rfl
  · obtain ⟨fa, hfa, hal, _, _⟩ := ml_analyze_ok_parts hbb hok
    subst hal
    rw [List.countP_append]
    have hml : (mlStage m (batch.foldl (stepEb now) st.ip_behavior) batch now).1.countP
        (persistTagged ip) = 0 := by
      apply mlStage_countP_zero
      intro a hqa
      unfold persistTagged at hqa
      rw [Bool.and_eq_true] at hqa
      have h1 : a.atype = "Persistent Anomalous Behavior" := by simpa using hqa.1
      rw [h1]
      decide
    rw [hml]
    unfold analyze_flows at hfa
    rw [goFlows_countP_eq (persistTagged ip)
      (fun g => if flowSrcOf g.1 = ip.data then 1 else 0) (groupFlows batch) fa hfa
      ?flowcount]
    case _ =>
      rw [sum_map_ite_eq_countP (fun g => flowSrcOf g.1 = ip.data) (groupFlows batch)]
      simp
    case flowcount =>
      intro g hg s hs
      obtain ⟨sa', sb', sc', p', hsplit', hparse', hseq⟩ := flowStep_ok_inv hs
      have hsrcof : flowSrcOf g.1 = sa' := by
        unfold flowSrcOf
        rw [hsplit']
        rfl
      by_cases hsa : sa' = ip.data
      · subst hsa
        rw [hseq, List.countP_append, List.countP_append]
        have h1 : (if 10 < g.2.length ∧ (p' = 22 ∨ p' = 23 ∨ p' = 3389 ∨ p' = 445)
            then [mkBruteAlert now ip.data sb' p'] else []).countP (persistTagged ip) = 0 := by
          split
          · simp [persistTagged_mkBrute]
          · rfl
        have h2 : (if ¬ is_internal_ip (String.mk sb') ∧ 100000 < (g.2.map Packet.size).sum
            then [mkLargeAlert now ip.data sb'] else []).countP (persistTagged ip) = 0 := by
          split
          · simp [persistTagged_mkLarge]
          · rfl
        have hmk : String.mk ip.data = ip := rfl
        have h3 : (match lookupA (mlStage m (batch.foldl (stepEb now) st.ip_behavior)
              batch now).2 (String.mk ip.data) with
            | some b => if b.scores.length ≠ 0 ∧ (0.85 : ℚ) < averageScore b.scores
                then [mkPersistAlert now ip.data (averageScore b.scores)] else []
            | none => []).countP (persistTagged ip) = 1 := by
          rw [hmk, hb]
          simp only
          rw [if_pos ⟨hscores, havg⟩]
          have := persistTagged_self ip now (averageScore b.scores)
          simp [this]
        rw [h1, h2, h3]
        show 0 + 0 + 1 = if flowSrcOf g.1 = ip.data then 1 else 0
        rw [if_pos hsrcof]
      · rw [hseq, List.countP_append, List.countP_append]
        have h1 : (if 10 < g.2.length ∧ (p' = 22 ∨ p' = 23 ∨ p' = 3389 ∨ p' = 445)
            then [mkBruteAlert now sa' sb' p'] else []).countP (persistTagged ip) = 0 := by
          split
          · simp [persistTagged_mkBrute]
          · rfl
        have h2 : (if ¬ is_internal_ip (String.mk sb') ∧ 100000 < (g.2.map Packet.size).sum
            then [mkLargeAlert now sa' sb'] else []).countP (persistTagged ip) = 0 := by
          split
          · simp [persistTagged_mkLarge]
          · rfl
        have hne : flowSrcOf g.1 ≠ ip.data := by
          rw [hsrcof]
          exact hsa
        have h3 : (match lookupA (mlStage m (batch.foldl (stepEb now) st.ip_behavior)
              batch now).2 (String.mk sa') with
            | some b => if b.scores.length ≠ 0 ∧ (0.85 : ℚ) < averageScore b.scores
                then [mkPersistAlert now sa' (averageScore b.scores)] else []
            | none => []).countP (persistTagged ip) = 0 := by
          split
          · rename_i b' hlook
            split
            · rename_i hcond
              have hpa : persistAlertOf (mlStage m (batch.foldl (stepEb now) st.ip_behavior)
                  batch now).2 now g.1 = some (mkPersistAlert now sa' (averageScore b'.scores)) := by
                unfold persistAlertOf
                rw [hsrcof, hlook]
                simp only
                rw [if_pos hcond]
              have := hcoll g hg hne _ hpa
              simp [this]
            · rfl
          · rfl
        rw [h1, h2, h3]
        show 0 + 0 + 0 = if flowSrcOf g.1 = ip.data then 1 else 0
        rw [if_neg hne]

/-- Claim C4 counterexample: one source IP with recorded average score
0.9 > 0.85 sourcing two flows in the batch receives TWO persistent-anomaly
alerts in a single analyze call, not one per IP. -/
theorem claim_C4_counterexample :
    (ml_analyze { cnn := none, svm := none }
        { packet_history := [],
          ip_behavior :=
            [("7.7.7.7", { packets := 1, last_seen := 0, scores := [9/10] })] }
        [{ src := "7.7.7.7", dst := "8.8.8.8", dport := 80 },
         { src := "7.7.7.7", dst := "9.9.9.9", dport := 80 }] 0).toOption.map
      (fun r => r.2.countP (persistTagged "7.7.7.7")) = some 2 := by
  with_unfolding_all rfl

theorem claim_C4_witness :
    ∃ st' alerts,
      ml_analyze { cnn := none, svm := none }
        { packet_history := [],
          ip_behavior :=
            [("7.7.7.7", { packets := 1, last_seen := 0, scores := [9/10] })] }
        [{ src := "7.7.7.7", dst := "8.8.8.8", dport := 80 },
         { src := "7.7.7.7", dst := "9.9.9.9", dport := 80 }] 0 = .ok (st', alerts) ∧
      alerts.countP (persistTagged "7.7.7.7")
        = (groupFlows [{ src := "7.7.7.7", dst := "8.8.8.8", dport := 80 },
            { src := "7.7.7.7", dst := "9.9.9.9", dport := 80 }]).countP
          (fun g => flowSrcOf g.1 = ("7.7.7.7" : String).data) := by
  cases h : ml_analyze { cnn := none, svm := none }
      { packet_history := [],
        ip_behavior :=
          [("7.7.7.7", { packets := 1, last_seen := 0, scores := [9/10] })] }
      [{ src := "7.7.7.7", dst := "8.8.8.8", dport := 80 },
       { src := "7.7.7.7", dst := "9.9.9.9", dport := 80 }] 0 with
  | error e =>
    have hok : (ml_analyze { cnn := none, svm := none }
        { packet_history := [],
          ip_behavior :=
            [("7.7.7.7", { packets := 1, last_seen := 0, scores := [9/10] })] }
        [{ src := "7.7.7.7", dst := "8.8.8.8", dport := 80 },
         { src := "7.7.7.7", dst := "9.9.9.9", dport := 80 }] 0).isOk = true := by
      with_unfolding_all rfl
    rw [h] at hok
    exact absurd hok Bool.false_ne_true
  | ok pr =>
    obtain ⟨s1, a1⟩ := pr
    refine ⟨s1, a1, rfl, ?_⟩
    have hall : ∀ g ∈ groupFlows [{ src := "7.7.7.7", dst := "8.8.8.8", dport := 80 },
        ({ src := "7.7.7.7", dst := "9.9.9.9", dport := 80 } : Packet)],
        flowSrcOf g.1 = ("7.7.7.7" : String).data := by decide
    exact claim_C4 { cnn := none, svm := none }
      { packet_history := [],
        ip_behavior :=
          [("7.7.7.7", { packets := 1, last_seen := 0, scores := [9/10] })] }
      [{ src := "7.7.7.7", dst := "8.8.8.8", dport := 80 },
       { src := "7.7.7.7", dst := "9.9.9.9", dport := 80 }] 0 s1 a1 "7.7.7.7"
      { packets := 3, last_seen := 0, scores := [9/10] } h
      (by with_unfolding_all rfl)
      (by decide)
      (of_decide_eq_true (by with_unfolding_all rfl))
      (fun g hg hne a hpa => absurd (hall g hg) hne)

/-! ## Claim C3: which detector failures are actually isolated -/

/-- Claim C3 counterexample: a single event whose src contains the ':'
separator makes the flow-key split produce four segments, and the
resulting ValueError in the flow-analysis detector propagates out of
analyze uncaught instead of being isolated. -/
theorem claim_C3_counterexample :
    ml_analyze { cnn := none, svm := none } { packet_history := [], ip_behavior := [] }
      [{ src := "a:b", dst := "c", dport := 22 }] 0
      = .error "too many values to unpack" := by
  with_unfolding_all rfl

/-- Claim C3 (amended): only the ML-detection stage is guarded by a
try/except.  For ANY models — including ones whose predictors raise on
every input — analyze raises nothing and still returns the flow-analysis
alerts appended to whatever the ML stage produced, provided the batch's
src and dst fields are free of the ':' separator; a ':' inside src or
dst makes the flow-analysis detector itself raise, and that exception
propagates to the caller (claim_C3_counterexample). -/
theorem claim_C3 (m : Models) (st : MLState) (batch : List Packet) (now : ℚ)
    (hb : batch ≠ [])
    (hcf : ∀ e ∈ batch, ':' ∉ e.src.data ∧ ':' ∉ e.dst.data) :
    ∃ st' fa,
      analyze_flows (mlStage m (batch.foldl (stepEb now) st.ip_behavior) batch now).2
        batch now = .ok fa
      ∧ ml_analyze m st batch now
        = .ok (st', (mlStage m (batch.foldl (stepEb now) st.ip_behavior) batch now).1 ++ fa) := by
  obtain ⟨fa, hfa⟩ := analyze_flows_ok_of_colon_free
    (mlStage m (batch.foldl (stepEb now) st.ip_behavior) batch now).2 batch now hcf
  refine ⟨MLState.mk (trimHistory (st.packet_history ++ batch))
      (cleanup_old_data
        (mlStage m (batch.foldl (stepEb now) st.ip_behavior) batch now).2 (now - 3600)),
    fa, hfa, ?_⟩
  unfold ml_analyze
  rw [if_neg hb, hfa]

theorem claim_C3_witness :
    ∃ st' fa,
      analyze_flows (mlStage
          { cnn := some (fun _ => .error "cnn crashed"),
            svm := some (fun _ => .error "svm crashed") }
          ((List.replicate 64 ({ src := "1.2.3.4", dst := "5.6.7.8", dport := 22 } : Packet)).foldl
            (stepEb 0) (MLState.mk [] []).ip_behavior)
          (List.replicate 64 ({ src := "1.2.3.4", dst := "5.6.7.8", dport := 22 } : Packet)) 0).2
        (List.replicate 64 ({ src := "1.2.3.4", dst := "5.6.7.8", dport := 22 } : Packet)) 0 = .ok fa
      ∧ ml_analyze
          { cnn := some (fun _ => .error "cnn crashed"),
            svm := some (fun _ => .error "svm crashed") }
          (MLState.mk [] [])
          (List.replicate 64 ({ src := "1.2.3.4", dst := "5.6.7.8", dport := 22 } : Packet)) 0
        = .ok (st', (mlStage
          { cnn := some (fun _ => .error "cnn crashed"),
            svm := some (fun _ => .error "svm crashed") }
          ((List.replicate 64 ({ src := "1.2.3.4", dst := "5.6.7.8", dport := 22 } : Packet)).foldl
            (stepEb 0) (MLState.mk [] []).ip_behavior)
          (List.replicate 64 ({ src := "1.2.3.4", dst := "5.6.7.8", dport := 22 } : Packet)) 0).1 ++ fa) :=
  claim_C3
    { cnn := some (fun _ => .error "cnn crashed"),
      svm := some (fun _ => .error "svm crashed") }
    (MLState.mk [] [])
    (List.replicate 64 ({ src := "1.2.3.4", dst := "5.6.7.8", dport := 22 } : Packet)) 0
    (by decide)
    (by decide)
